import Mathlib

/-!
Verification of the smtp-codec repository: a shallow embedding of its
byte-level streaming grammar (nom combinators over `&[u8]`), its value
model (`src/types.rs`), and its helpers (`src/utils.rs`, `src/parse/mod.rs`,
`src/parse/command.rs`, `src/parse/response.rs`, `src/parse/address.rs`).

Bytes are modelled as `Nat` (every byte of interest is < 256; byte-class
predicates only ever inspect ranges).  A parser is a function from the
input byte list to a three-way result mirroring nom's streaming contract:
`done rest value` for success, `incomplete` for `Err::Incomplete`, and
`error` for `Err::Error` (the repository never uses `Err::Failure`/cut).
-/

/-- The byte strings of the Rust sources, rendered as lists of byte values.
All literals used by the codec are ASCII, so `Char.toNat` agrees with the
UTF-8 bytes. -/
def bytes (s : String) : List Nat :=
  s.toList.map Char.toNat

/-- Three-way outcome of a nom streaming combinator:
success (with remaining input), `Err::Incomplete`, or `Err::Error`. -/
inductive PRes (α : Type) where
  | done (rest : List Nat) (val : α)
  | incomplete
  | error
deriving Repr, DecidableEq

/-- The type of an embedded nom combinator over `&[u8]`. -/
abbrev BP (α : Type) : Type := List Nat → PRes α

/-- Sequencing: run `p`, feed its value and remaining input to `f`
(`Incomplete`/`Error` propagate).  Models nom's `tuple` chaining. -/
def pbind {α β : Type} (p : BP α) (f : α → BP β) : BP β := fun input =>
  match p input with
  | .done rest v => f v rest
  | .incomplete => .incomplete
  | .error => .error

/-- nom's `map`. -/
def pmap {α β : Type} (f : α → β) (p : BP α) : BP β := fun input =>
  match p input with
  | .done rest v => .done rest (f v)
  | .incomplete => .incomplete
  | .error => .error

/-- nom's `value(v, p)`. -/
def pvalue {α β : Type} (v : β) (p : BP α) : BP β :=
  pmap (fun _ => v) p

/-- nom's `map_res`: a failing conversion turns success into `Err::Error`. -/
def pmapRes {α β : Type} (p : BP α) (f : α → Option β) : BP β := fun input =>
  match p input with
  | .done rest v =>
    match f v with
    | some w => .done rest w
    | none => .error
  | .incomplete => .incomplete
  | .error => .error

/-- nom's `opt`: `Err::Error` becomes `none`; `Incomplete` propagates. -/
def popt {α : Type} (p : BP α) : BP (Option α) := fun input =>
  match p input with
  | .done rest v => .done rest (some v)
  | .incomplete => .incomplete
  | .error => .done input none

/-- nom's `alt` over a list of alternatives: first success wins,
`Err::Error` tries the next branch, `Incomplete` propagates immediately. -/
def altL {α : Type} : List (BP α) → BP α
  | [] => fun _ => .error
  | p :: ps => fun input =>
    match p input with
    | .done rest v => .done rest v
    | .incomplete => .incomplete
    | .error => altL ps input

/-- nom's `recognize`: on success return the consumed input slice. -/
def precognize {α : Type} (p : BP α) : BP (List Nat) := fun input =>
  match p input with
  | .done rest _ => .done rest (input.take (input.length - rest.length))
  | .incomplete => .incomplete
  | .error => .error

/-- nom's `preceded(a, b)`. -/
def ppreceded {α β : Type} (a : BP α) (b : BP β) : BP β :=
  pbind a fun _ => b

/-- nom's `delimited(l, p, r)`. -/
def pdelimited {α β γ : Type} (l : BP α) (p : BP β) (r : BP γ) : BP β :=
  pbind l fun _ => pbind p fun v => pmap (fun _ => v) r

/-- Case-folding of an ASCII byte (uppercase letters to lowercase), as used
by nom's `tag_no_case` comparison. -/
def lowerB (b : Nat) : Nat :=
  if 65 ≤ b ∧ b ≤ 90 then b + 32 else b

/-- Shared engine of `tag`/`tag_no_case` (streaming): compare the pattern
byte-for-byte under `eqb`; a too-short input that matched so far is
`Incomplete`, a mismatch is `Err::Error`; on success the *input* slice is
returned (relevant to `tag_no_case`, whose result keeps the input's case). -/
def tagBy (eqb : Nat → Nat → Bool) : List Nat → BP (List Nat)
  | [], input => .done input []
  | _ :: _, [] => .incomplete
  | p :: ps, c :: cs =>
    if eqb p c then
      match tagBy eqb ps cs with
      | .done rest consumed => .done rest (c :: consumed)
      | .incomplete => .incomplete
      | .error => .error
    else .error

/-- nom's streaming `tag`. -/
def tagP (t : List Nat) : BP (List Nat) :=
  tagBy (fun a b => a == b) t

/-- nom's streaming `tag_no_case` (ASCII case-insensitive). -/
def tagNC (t : List Nat) : BP (List Nat) :=
  tagBy (fun a b => lowerB a == lowerB b) t

/-- Scan a maximal prefix satisfying `p`.  `some (taken, rest)` when a
non-matching byte was found (`rest` starts with it); `none` when the scan
ran off the end of the input — the streaming combinators turn that case
into `Incomplete` (more input could extend the match). -/
def scanWhile (p : Nat → Bool) : List Nat → Option (List Nat × List Nat)
  | [] => none
  | c :: rest =>
    if p c then
      match scanWhile p rest with
      | some (t, d) => some (c :: t, d)
      | none => none
    else some ([], c :: rest)

/-- nom's streaming `take_while`: reaching the end of input is `Incomplete`. -/
def takeWhileP (p : Nat → Bool) : BP (List Nat) := fun input =>
  match scanWhile p input with
  | some (t, d) => .done d t
  | none => .incomplete

/-- nom's streaming `take_while1`. -/
def takeWhile1P (p : Nat → Bool) : BP (List Nat) := fun input =>
  match scanWhile p input with
  | some ([], _) => .error
  | some (t, d) => .done d t
  | none => .incomplete

/-- nom's streaming `take_while_m_n(m, n, p)`: fewer than `m` matching bytes
before a non-matching byte is `Err::Error`; at least `n` available matching
bytes take exactly `n`; running out of input below `n` matches is
`Incomplete`. -/
def takeWhileMN (m n : Nat) (p : Nat → Bool) : BP (List Nat) := fun input =>
  match scanWhile p input with
  | some (t, d) =>
    if t.length < m then .error
    else .done (t.drop n ++ d) (t.take n)
  | none =>
    if n ≤ input.length then .done (input.drop n) (input.take n)
    else .incomplete

/-- nom's `many0` with explicit fuel (the callers pass `input.length + 1`,
which always suffices because each iteration must consume input: nom
returns `Err::Error` when the inner parser succeeds without consuming). -/
def many0F {α : Type} (p : BP α) : Nat → BP (List α)
  | 0, _ => .error
  | fuel + 1, input =>
    match p input with
    | .incomplete => .incomplete
    | .error => .done input []
    | .done rest v =>
      if rest.length < input.length then
        match many0F p fuel rest with
        | .done rest2 vs => .done rest2 (v :: vs)
        | .incomplete => .incomplete
        | .error => .error
      else .error

/-- nom's `many0`. -/
def many0P {α : Type} (p : BP α) : BP (List α) := fun input =>
  many0F p (input.length + 1) input

/-- nom's `count(p, n)`: exactly `n` repetitions. -/
def countP {α : Type} (p : BP α) : Nat → BP (List α)
  | 0, input => .done input []
  | n + 1, input =>
    match p input with
    | .incomplete => .incomplete
    | .error => .error
    | .done rest v =>
      match countP p n rest with
      | .done rest2 vs => .done rest2 (v :: vs)
      | .incomplete => .incomplete
      | .error => .error

/-- Engine of nom's `many_m_n`: at most `mx` further repetitions, at least
`mn`; an inner `Err::Error` below the minimum fails, otherwise stops; an
inner success without consumption is `Err::Error` (infinite-loop guard). -/
def manyMNF {α : Type} (p : BP α) : Nat → Nat → BP (List α)
  | _, 0, input => .done input []
  | mn, mx + 1, input =>
    match p input with
    | .incomplete => .incomplete
    | .error => if mn = 0 then .done input [] else .error
    | .done rest v =>
      if rest.length < input.length then
        match manyMNF p (mn - 1) mx rest with
        | .done rest2 vs => .done rest2 (v :: vs)
        | .incomplete => .incomplete
        | .error => .error
      else .error

/-- nom's `many_m_n(mn, mx, p)`. -/
def manyMN {α : Type} (mn mx : Nat) (p : BP α) : BP (List α) := fun input =>
  if mx < mn then .error else manyMNF p mn mx input

/-- Engine of nom's `separated_list0`/`separated_list1` continuation loop:
already holding one element, repeatedly try `sep` then `elem`; an
`Err::Error` from either stops the loop (without consuming the separator);
`Incomplete` propagates; a round that consumes nothing is `Err::Error`. -/
def sepListF {α β : Type} (sep : BP β) (elem : BP α) : Nat → List Nat → List α → PRes (List α)
  | 0, _, _ => .error
  | fuel + 1, input, acc =>
    match sep input with
    | .incomplete => .incomplete
    | .error => .done input acc
    | .done rest1 _ =>
      match elem rest1 with
      | .incomplete => .incomplete
      | .error => .done input acc
      | .done rest2 v =>
        if rest2.length < input.length then
          sepListF sep elem fuel rest2 (acc ++ [v])
        else .error

/-- nom's `separated_list1`. -/
def sepList1 {α β : Type} (sep : BP β) (elem : BP α) : BP (List α) := fun input =>
  match elem input with
  | .incomplete => .incomplete
  | .error => .error
  | .done rest v => sepListF sep elem (input.length + 1) rest [v]

/-- nom's `separated_list0`. -/
def sepList0 {α β : Type} (sep : BP β) (elem : BP α) : BP (List α) := fun input =>
  match elem input with
  | .incomplete => .incomplete
  | .error => .done input []
  | .done rest v => sepListF sep elem (input.length + 1) rest [v]

/-! ### ABNF core terminals and byte classes (`abnf-core`, streaming) -/

/-- `is_ALPHA`: ASCII letter. -/
def is_ALPHA (b : Nat) : Bool :=
  (65 ≤ b && b ≤ 90) || (97 ≤ b && b ≤ 122)

/-- `is_DIGIT`: ASCII digit. -/
def is_DIGIT (b : Nat) : Bool :=
  48 ≤ b && b ≤ 57

/-- `is_hex_digit` (nom's `character::is_hex_digit`). -/
def is_hex_digit (b : Nat) : Bool :=
  is_DIGIT b || (65 ≤ b && b ≤ 70) || (97 ≤ b && b ≤ 102)

/-- abnf-core streaming `SP`. -/
def SPp : BP (List Nat) := tagP (bytes " ")

/-- abnf-core streaming `CRLF`. -/
def CRLFp : BP (List Nat) := tagP (bytes "\r\n")

/-- abnf-core streaming `DQUOTE`. -/
def DQUOTEp : BP (List Nat) := tagP (bytes "\"")

/-- nom's streaming `digit1`. -/
def digit1 : BP (List Nat) := takeWhile1P is_DIGIT

/-! ### Numeric conversions used through `map_res` -/

/-- Decimal value of an ASCII digit string (the digits were produced by
`digit1`, so each byte is in `48..=57`). -/
def natOfDigits (ds : List Nat) : Nat :=
  ds.foldl (fun acc d => acc * 10 + (d - 48)) 0

/-- `str::parse::<u32>` as reached from `digit1` output: rejects the empty
string and non-digits, and overflow beyond `u32::MAX`.  (The leading `+`
that Rust would also accept can never be produced by `digit1`.) -/
def parseU32 (ds : List Nat) : Option Nat :=
  if ds ≠ [] ∧ ds.all is_DIGIT then
    if natOfDigits ds ≤ 4294967295 then some (natOfDigits ds) else none
  else none

/-- `u16::from_str_radix(s, 10)` as reached from all-digit slices. -/
def parseU16 (ds : List Nat) : Option Nat :=
  if ds ≠ [] ∧ ds.all is_DIGIT then
    if natOfDigits ds ≤ 65535 then some (natOfDigits ds) else none
  else none

/-- `std::str::from_utf8` at the call sites of this crate: every byte class
fed into it is confined to ASCII (`< 128`), where UTF-8 validation always
succeeds and the string's bytes are the input bytes. -/
def from_utf8ASCII (l : List Nat) : Option (List Nat) :=
  if l.all (fun b => b < 128) then some l else none

namespace Imf

/-- `parse/imf.rs`: `is_atext` — ALPHA / DIGIT / one of
! # $ % & ' * + - / = ? ^ _ backtick lbrace pipe rbrace ~ . -/
def is_atext (b : Nat) : Bool :=
  is_ALPHA b || is_DIGIT b ||
    [33, 35, 36, 37, 38, 39, 42, 43, 45, 47, 61, 63, 94, 95, 96, 123, 124, 125, 126].contains b

end Imf

namespace ModParse

/-! `src/parse/mod.rs` (the productions shared between the command and
response grammars; `sub_domain`, `is_Let_dig` and `Ldh_str` are defined
identically in `parse/mod.rs` and `parse/command.rs`, so they are embedded
once here and referenced from both grammars). -/

/-- `is_base64_char`. -/
def is_base64_char (b : Nat) : Bool :=
  is_ALPHA b || is_DIGIT b || b == 43 || b == 47

/-- `base64 = *(ALPHA / DIGIT / "+" / "/") [ "==" / "=" ]` (recognized,
then `from_utf8`). -/
def base64 : BP (List Nat) :=
  pmapRes
    (precognize
      (pbind (takeWhileP is_base64_char) fun _ =>
        popt (altL [tagP (bytes "=="), tagP (bytes "=")])))
    from_utf8ASCII

/-- `number`: `map_res(map_res(digit1, from_utf8), str::parse::<u32>)`. -/
def number : BP Nat :=
  pmapRes (pmapRes digit1 from_utf8ASCII) parseU32

/-- `Let-dig = ALPHA / DIGIT`. -/
def is_Let_dig (b : Nat) : Bool :=
  is_ALPHA b || is_DIGIT b

/-- `Ldh-str = *( ALPHA / DIGIT / "-" ) Let-dig` (as implemented:
`many0` over single-letter / single-digit / `-` Let-dig chunks). -/
def Ldh_str : BP (List Nat) :=
  precognize
    (many0P
      (altL
        [takeWhileMN 1 1 is_ALPHA,
         takeWhileMN 1 1 is_DIGIT,
         precognize (pbind (tagP (bytes "-")) fun _ => takeWhileMN 1 1 is_Let_dig)]))

/-- `sub-domain = Let-dig [Ldh-str]`. -/
def sub_domain : BP (List Nat) :=
  precognize (pbind (takeWhileMN 1 1 is_Let_dig) fun _ => popt Ldh_str)

/-- `parse/mod.rs`: `Domain = sub-domain *("." sub-domain)`, implemented as
`separated_list1(tag("."), sub_domain)` recognized and `from_utf8`-decoded. -/
def Domain : BP (List Nat) :=
  pmapRes (precognize (sepList1 (tagP (bytes ".")) sub_domain)) from_utf8ASCII

end ModParse

namespace Addr

/-! `src/parse/address.rs` (RFC 5321 §4.1.3 address literals). -/

/-- `Snum = 1*3DIGIT`. -/
def snum : BP (List Nat) := takeWhileMN 1 3 is_DIGIT

/-- `IPv4-address-literal = Snum 3("." Snum)`. -/
def ipv4_address_literal : BP (List Nat) :=
  precognize (pbind snum fun _ => countP (pbind (tagP (bytes ".")) fun _ => snum) 3)

/-- `IPv6-hex = 1*4HEXDIG`. -/
def ipv6_hex : BP (List Nat) := takeWhileMN 1 4 is_hex_digit

/-- `IPv6-full = IPv6-hex 7(":" IPv6-hex)`. -/
def ipv6_full : BP (List Nat) :=
  precognize (pbind ipv6_hex fun _ => countP (pbind (tagP (bytes ":")) fun _ => ipv6_hex) 7)

/-- `IPv6-comp = [IPv6-hex *5(":" IPv6-hex)] "::" [IPv6-hex *5(":" IPv6-hex)]`. -/
def ipv6_comp : BP (List Nat) :=
  precognize
    (pbind (popt (pbind ipv6_hex fun _ => manyMN 0 5 (pbind (tagP (bytes ":")) fun _ => ipv6_hex))) fun _ =>
      pbind (tagP (bytes "::")) fun _ =>
        popt (pbind ipv6_hex fun _ => manyMN 0 5 (pbind (tagP (bytes ":")) fun _ => ipv6_hex)))

/-- `IPv6v4-full = IPv6-hex 5(":" IPv6-hex) ":" IPv4-address-literal`. -/
def ipv6v4_full : BP (List Nat) :=
  precognize
    (pbind ipv6_hex fun _ =>
      pbind (countP (pbind (tagP (bytes ":")) fun _ => ipv6_hex) 5) fun _ =>
        pbind (tagP (bytes ":")) fun _ => ipv4_address_literal)

/-- `IPv6v4-comp = [IPv6-hex *3(":" IPv6-hex)] "::" [IPv6-hex *3(":" IPv6-hex) ":"] IPv4-address-literal`. -/
def ipv6v4_comp : BP (List Nat) :=
  precognize
    (pbind (popt (pbind ipv6_hex fun _ => manyMN 0 3 (pbind (tagP (bytes ":")) fun _ => ipv6_hex))) fun _ =>
      pbind (tagP (bytes "::")) fun _ =>
        pbind
          (popt
            (pbind ipv6_hex fun _ =>
              pbind (manyMN 0 3 (pbind (tagP (bytes ":")) fun _ => ipv6_hex)) fun _ =>
                tagP (bytes ":"))) fun _ =>
          ipv4_address_literal)

/-- `IPv6-addr = IPv6-full / IPv6-comp / IPv6v4-full / IPv6v4-comp`. -/
def ipv6_addr : BP (List Nat) :=
  precognize (altL [ipv6_full, ipv6_comp, ipv6v4_full, ipv6v4_comp])

/-- `IPv6-address-literal = "IPv6:" IPv6-addr`. -/
def ipv6_address_literal : BP (List Nat) :=
  precognize (pbind (tagNC (bytes "IPv6:")) fun _ => ipv6_addr)

/-- `dcontent = %d33-90 / %d94-126`. -/
def is_dcontent (b : Nat) : Bool :=
  (33 ≤ b && b ≤ 90) || (94 ≤ b && b ≤ 126)

/-- `Standardized-tag = Ldh-str`. -/
def standardized_tag : BP (List Nat) := ModParse.Ldh_str

/-- `General-address-literal = Standardized-tag ":" 1*dcontent`. -/
def general_address_literal : BP (List Nat) :=
  precognize
    (pbind standardized_tag fun _ =>
      pbind (tagP (bytes ":")) fun _ => takeWhile1P is_dcontent)

end Addr

namespace Cmd

/-! `src/parse/command.rs`: the SMTP command grammar.  Its `command`
function builds `Command` values carrying the raw matched byte slices
(`Command::Helo(data.into())`, `Command::Mail { data, params }`, …); that
value shape is embedded here as `ParsedCommand`. -/

/-- The value shape produced by `parse/command.rs` (raw byte payloads,
`recognize`d spans for paths and parameter lists). -/
inductive ParsedCommand where
  | Helo (data : List Nat)
  | Ehlo (data : List Nat)
  | Mail (data : List Nat) (params : Option (List Nat))
  | Rcpt (data : List Nat) (params : Option (List Nat))
  | Data
  | Rset
  | Vrfy (data : List Nat)
  | Expn (data : List Nat)
  | Help (data : Option (List Nat))
  | Noop (data : Option (List Nat))
  | Quit
  | StartTLS
  | AuthLogin (data : Option (List Nat))
  | AuthPlain (data : Option (List Nat))
deriving Repr, DecidableEq

/-- `qtextSMTP = %d32-33 / %d35-91 / %d93-126`. -/
def is_qtextSMTP (b : Nat) : Bool :=
  (32 ≤ b && b ≤ 33) || (35 ≤ b && b ≤ 91) || (93 ≤ b && b ≤ 126)

/-- `quoted-pairSMTP = %d92 %d32-126`. -/
def quoted_pairSMTP : BP (List Nat) :=
  precognize
    (pbind (tagP (bytes "\\")) fun _ =>
      takeWhileMN 1 1 (fun b => 32 ≤ b && b ≤ 126))

/-- `QcontentSMTP = qtextSMTP / quoted-pairSMTP`. -/
def QcontentSMTP : BP (List Nat) :=
  precognize (altL [takeWhileMN 1 1 is_qtextSMTP, quoted_pairSMTP])

/-- `Atom = 1*atext`. -/
def Atom : BP (List Nat) := takeWhile1P Imf.is_atext

/-- `Quoted-string = DQUOTE *QcontentSMTP DQUOTE`. -/
def Quoted_string : BP (List Nat) :=
  precognize (pdelimited DQUOTEp (many0P QcontentSMTP) DQUOTEp)

/-- `String = Atom / Quoted-string` (named `StringP` because `String` is
taken by the Lean prelude). -/
def StringP : BP (List Nat) :=
  precognize (altL [Atom, Quoted_string])

/-- `Dot-string = Atom *("." Atom)`. -/
def Dot_string : BP (List Nat) :=
  precognize (pbind Atom fun _ => many0P (pbind (tagP (bytes ".")) fun _ => Atom))

/-- `Local-part = Dot-string / Quoted-string`. -/
def Local_part : BP (List Nat) :=
  precognize (altL [Dot_string, Quoted_string])

/-- `Domain = sub-domain *("." sub-domain)` (the `parse/command.rs` copy,
built with `many0` rather than `separated_list1`). -/
def Domain : BP (List Nat) :=
  precognize
    (pbind ModParse.sub_domain fun _ =>
      many0P (pbind (tagP (bytes ".")) fun _ => ModParse.sub_domain))

/-- `address-literal = "[" ( IPv4-address-literal / IPv6-address-literal /
General-address-literal ) "]"` (recognized, brackets included). -/
def address_literal : BP (List Nat) :=
  precognize
    (pdelimited (tagP (bytes "["))
      (altL [Addr.ipv4_address_literal, Addr.ipv6_address_literal, Addr.general_address_literal])
      (tagP (bytes "]")))

/-- `Mailbox = Local-part "@" ( Domain / address-literal )`. -/
def Mailbox : BP (List Nat) :=
  precognize
    (pbind Local_part fun _ =>
      pbind (tagP (bytes "@")) fun _ => altL [Domain, address_literal])

/-- `At-domain = "@" Domain`. -/
def At_domain : BP (List Nat) :=
  precognize (pbind (tagP (bytes "@")) fun _ => Domain)

/-- `A-d-l = At-domain *( "," At-domain )`. -/
def A_d_l : BP (List Nat) :=
  precognize (pbind At_domain fun _ => many0P (pbind (tagP (bytes ",")) fun _ => At_domain))

/-- `Path = "<" [ A-d-l ":" ] Mailbox ">"`. -/
def Path : BP (List Nat) :=
  precognize
    (pbind (tagP (bytes "<")) fun _ =>
      pbind (popt (pbind A_d_l fun _ => tagP (bytes ":"))) fun _ =>
        pbind Mailbox fun _ => tagP (bytes ">"))

/-- `Reverse-path = Path / "<>"` (recognized: the returned slice keeps the
angle brackets). -/
def Reverse_path : BP (List Nat) :=
  precognize (altL [Path, tagP (bytes "<>")])

/-- `Forward-path = Path`. -/
def Forward_path : BP (List Nat) :=
  precognize Path

/-- `esmtp-keyword = (ALPHA / DIGIT) *(ALPHA / DIGIT / "-")`. -/
def esmtp_keyword : BP (List Nat) :=
  precognize
    (pbind (takeWhileMN 1 1 (fun b => is_ALPHA b || is_DIGIT b)) fun _ =>
      takeWhileP (fun b => is_ALPHA b || is_DIGIT b || b == 45))

/-- `esmtp-value = 1*(%d33-60 / %d62-126)`. -/
def esmtp_value : BP (List Nat) :=
  takeWhile1P (fun b => (33 ≤ b && b ≤ 60) || (62 ≤ b && b ≤ 126))

/-- `esmtp-param = esmtp-keyword ["=" esmtp-value]`. -/
def esmtp_param : BP (List Nat) :=
  precognize
    (pbind esmtp_keyword fun _ => popt (pbind (tagP (bytes "=")) fun _ => esmtp_value))

/-- `Mail-parameters = esmtp-param *(SP esmtp-param)`. -/
def Mail_parameters : BP (List Nat) :=
  precognize (pbind esmtp_param fun _ => many0P (pbind SPp fun _ => esmtp_param))

/-- `Rcpt-parameters = esmtp-param *(SP esmtp-param)`. -/
def Rcpt_parameters : BP (List Nat) :=
  precognize (pbind esmtp_param fun _ => many0P (pbind SPp fun _ => esmtp_param))

/-- `helo = "HELO" SP Domain CRLF` (with the `address_literal` alternative
kept for Geary, as in the source). -/
def helo : BP ParsedCommand :=
  pbind (tagNC (bytes "HELO")) fun _ =>
  pbind SPp fun _ =>
  pbind (altL [Domain, address_literal]) fun d =>
  pmap (fun _ => ParsedCommand.Helo d) CRLFp

/-- `ehlo = "EHLO" SP ( Domain / address-literal ) CRLF`. -/
def ehlo : BP ParsedCommand :=
  pbind (tagNC (bytes "EHLO")) fun _ =>
  pbind SPp fun _ =>
  pbind (altL [Domain, address_literal]) fun d =>
  pmap (fun _ => ParsedCommand.Ehlo d) CRLFp

/-- `mail = "MAIL FROM:" Reverse-path [SP Mail-parameters] CRLF`
(the optional SP after the colon is the deliberate Outlook tolerance). -/
def mail : BP ParsedCommand :=
  pbind (tagNC (bytes "MAIL FROM:")) fun _ =>
  pbind (popt SPp) fun _ =>
  pbind Reverse_path fun d =>
  pbind (popt (ppreceded SPp Mail_parameters)) fun maybe_params =>
  pmap (fun _ => ParsedCommand.Mail d maybe_params) CRLFp

/-- `rcpt = "RCPT TO:" ( "<Postmaster@" Domain ">" / "<Postmaster>" /
Forward-path ) [SP Rcpt-parameters] CRLF`. -/
def rcpt : BP ParsedCommand :=
  pbind (tagNC (bytes "RCPT TO:")) fun _ =>
  pbind (popt SPp) fun _ =>
  pbind
    (altL
      [precognize
        (pbind (tagNC (bytes "<Postmaster@")) fun _ =>
          pbind Domain fun _ => tagP (bytes ">")),
       tagNC (bytes "<Postmaster>"),
       Forward_path]) fun d =>
  pbind (popt (ppreceded SPp Rcpt_parameters)) fun maybe_params =>
  pmap (fun _ => ParsedCommand.Rcpt d maybe_params) CRLFp

/-- `data = "DATA" CRLF`. -/
def data : BP ParsedCommand :=
  pbind (tagNC (bytes "DATA")) fun _ => pmap (fun _ => ParsedCommand.Data) CRLFp

/-- `rset = "RSET" CRLF`. -/
def rset : BP ParsedCommand :=
  pbind (tagNC (bytes "RSET")) fun _ => pmap (fun _ => ParsedCommand.Rset) CRLFp

/-- `vrfy = "VRFY" SP String CRLF`. -/
def vrfy : BP ParsedCommand :=
  pbind (tagNC (bytes "VRFY")) fun _ =>
  pbind SPp fun _ =>
  pbind StringP fun d =>
  pmap (fun _ => ParsedCommand.Vrfy d) CRLFp

/-- `expn = "EXPN" SP String CRLF`. -/
def expn : BP ParsedCommand :=
  pbind (tagNC (bytes "EXPN")) fun _ =>
  pbind SPp fun _ =>
  pbind StringP fun d =>
  pmap (fun _ => ParsedCommand.Expn d) CRLFp

/-- `help = "HELP" [ SP String ] CRLF`. -/
def help : BP ParsedCommand :=
  pbind (tagNC (bytes "HELP")) fun _ =>
  pbind (popt (ppreceded SPp StringP)) fun d =>
  pmap (fun _ => ParsedCommand.Help d) CRLFp

/-- `noop = "NOOP" [ SP String ] CRLF`. -/
def noop : BP ParsedCommand :=
  pbind (tagNC (bytes "NOOP")) fun _ =>
  pbind (popt (ppreceded SPp StringP)) fun d =>
  pmap (fun _ => ParsedCommand.Noop d) CRLFp

/-- `quit = "QUIT" CRLF`. -/
def quit : BP ParsedCommand :=
  pbind (tagNC (bytes "QUIT")) fun _ => pmap (fun _ => ParsedCommand.Quit) CRLFp

/-- `starttls = "STARTTLS" CRLF`. -/
def starttls : BP ParsedCommand :=
  pbind (tagNC (bytes "STARTTLS")) fun _ => pmap (fun _ => ParsedCommand.StartTLS) CRLFp

/-- `auth_login_command = "AUTH LOGIN" [SP username] CRLF`. -/
def auth_login : BP ParsedCommand :=
  pbind (tagNC (bytes "AUTH")) fun _ =>
  pbind SPp fun _ =>
  pbind (tagNC (bytes "LOGIN")) fun _ =>
  pbind (popt (ppreceded SPp ModParse.base64)) fun d =>
  pmap (fun _ => ParsedCommand.AuthLogin d) CRLFp

/-- `auth_plain_command = "AUTH PLAIN" [SP base64] CRLF`. -/
def auth_plain : BP ParsedCommand :=
  pbind (tagNC (bytes "AUTH")) fun _ =>
  pbind SPp fun _ =>
  pbind (tagNC (bytes "PLAIN")) fun _ =>
  pbind (popt (ppreceded SPp ModParse.base64)) fun d =>
  pmap (fun _ => ParsedCommand.AuthPlain d) CRLFp

/-- `command`: the ordered alternative over every verb. -/
def command : BP ParsedCommand :=
  altL
    [helo, ehlo, mail, rcpt, data, rset, vrfy, expn, help, noop, quit,
     starttls, auth_login, auth_plain]

end Cmd

/-! ### Generic list helpers mirroring Rust slice/str operations -/

/-- Rust's `slice::split_last` (here returning `(init, last)`): `none` on
the empty slice, otherwise the elements before the last and the last. -/
def splitLast {α : Type} : List α → Option (List α × α)
  | [] => none
  | a :: rest =>
    match splitLast rest with
    | some (h, l) => some (a :: h, l)
    | none => some ([], a)

/-- Worker for Rust's `str::lines`: split at `\n` (byte 10); a segment that
was terminated by `\n` additionally drops one trailing `\r` (byte 13); a
final unterminated segment is kept only if non-empty (and keeps any
trailing `\r`).  `acc` holds the current segment reversed. -/
def linesGo : List Nat → List Nat → List (List Nat)
  | acc, [] => if acc = [] then [] else [acc.reverse]
  | acc, c :: rest =>
    if c = 10 then
      (if acc.head? = some 13 then acc.tail.reverse else acc.reverse) :: linesGo [] rest
    else linesGo (c :: acc) rest

/-- Rust's `str::lines` over bytes. -/
def rustLines (s : List Nat) : List (List Nat) :=
  linesGo [] s

/-- The bytes Rust's `write!("{}", n)` produces for an unsigned integer. -/
def natDecimal (n : Nat) : List Nat :=
  (Nat.toDigits 10 n).map Char.toNat

namespace Utils

/-! `src/utils.rs`: quoted-string escaping.  `str::replace(pat, rep)`
substitutes every non-overlapping occurrence of `pat` scanning left to
right; with the concrete two-byte patterns of this file that is exactly
the recursions below. -/

/-- `replace("\", "\\")`: double every backslash (byte 92). -/
def escBackslashGo : List Nat → List Nat
  | [] => []
  | c :: rest => if c = 92 then 92 :: 92 :: escBackslashGo rest else c :: escBackslashGo rest

/-- `replace("(dquote)", "\(dquote)")`: backslash-prefix every double quote
(byte 34). -/
def escQuoteGo : List Nat → List Nat
  | [] => []
  | c :: rest => if c = 34 then 92 :: 34 :: escQuoteGo rest else c :: escQuoteGo rest

/-- `escape_quoted`, including its two `contains` guards. -/
def escape_quoted (s : List Nat) : List Nat :=
  let e1 := if s.contains 92 then escBackslashGo s else s
  if e1.contains 34 then escQuoteGo e1 else e1

/-- Rust `str::contains` for a two-byte pattern. -/
def hasPair (a b : Nat) : List Nat → Bool
  | [] => false
  | [_] => false
  | x :: y :: rest => (x == a && y == b) || hasPair a b (y :: rest)

/-- `replace("\\", "\")`: collapse backslash pairs, scanning left to right. -/
def unescBackslashGo : List Nat → List Nat
  | [] => []
  | [c] => [c]
  | c :: d :: rest =>
    if c = 92 ∧ d = 92 then 92 :: unescBackslashGo rest
    else c :: unescBackslashGo (d :: rest)

/-- `replace("\(dquote)", "(dquote)")`: unescape quotes, scanning left to
right. -/
def unescQuoteGo : List Nat → List Nat
  | [] => []
  | [c] => [c]
  | c :: d :: rest =>
    if c = 92 ∧ d = 34 then 34 :: unescQuoteGo rest
    else c :: unescQuoteGo (d :: rest)

/-- `unescape_quoted`, including its two `contains` guards. -/
def unescape_quoted (s : List Nat) : List Nat :=
  let u1 := if hasPair 92 92 s then unescBackslashGo s else s
  if hasPair 92 34 u1 then unescQuoteGo u1 else u1

end Utils

namespace Types

/-! `src/types.rs`: the value model and its serializers.  Strings are
byte lists; `Write` sinks are modelled by returning the written bytes
(writing to a `Vec` never fails, so the `io::Result` layer is dropped). -/

/-- `DomainOrAddress`. -/
inductive DomainOrAddress where
  | Domain (domain : List Nat)
  | Address (address : List Nat)
deriving Repr, DecidableEq

/-- `DomainOrAddress::serialize`. -/
def DomainOrAddress.serialize : DomainOrAddress → List Nat
  | .Domain domain => domain
  | .Address address => bytes "[" ++ address ++ bytes "]"

/-- `Parameter`. -/
inductive Parameter where
  | Size (size : Nat)
  | Other (keyword : List Nat) (value : Option (List Nat))
deriving Repr, DecidableEq

/-- `Parameter::serialize`. -/
def Parameter.serialize : Parameter → List Nat
  | .Size size => bytes "SIZE=" ++ natDecimal size
  | .Other keyword value =>
    keyword ++
      match value with
      | some v => bytes "=" ++ v
      | none => []

/-- `AtomOrQuoted`. -/
inductive AtomOrQuoted where
  | Atom (s : List Nat)
  | Quoted (s : List Nat)
deriving Repr, DecidableEq

/-- `AtomOrQuoted::serialize`. -/
def AtomOrQuoted.serialize : AtomOrQuoted → List Nat
  | .Atom atom => atom
  | .Quoted quoted => bytes "\"" ++ Utils.escape_quoted quoted ++ bytes "\""

/-- `Command` (the value model of `src/types.rs`). -/
inductive Command where
  | Ehlo (domain_or_address : DomainOrAddress)
  | Helo (domain_or_address : DomainOrAddress)
  | Mail (reverse_path : List Nat) (parameters : List Parameter)
  | Rcpt (forward_path : List Nat) (parameters : List Parameter)
  | Data
  | Rset
  | Vrfy (user_or_mailbox : AtomOrQuoted)
  | Expn (mailing_list : AtomOrQuoted)
  | Help (argument : Option AtomOrQuoted)
  | Noop (argument : Option AtomOrQuoted)
  | Quit
  | StartTLS
  | AuthLogin (initial : Option (List Nat))
  | AuthPlain (initial : Option (List Nat))
deriving Repr, DecidableEq

/-- `Command::serialize`. -/
def Command.serialize (c : Command) : List Nat :=
  (match c with
   | .Helo domain_or_address => bytes "HELO " ++ domain_or_address.serialize
   | .Ehlo domain_or_address => bytes "EHLO " ++ domain_or_address.serialize
   | .Mail reverse_path parameters =>
     bytes "MAIL FROM:<" ++ reverse_path ++ bytes ">" ++
       (parameters.map fun parameter => bytes " " ++ parameter.serialize).flatten
   | .Rcpt forward_path parameters =>
     bytes "RCPT TO:<" ++ forward_path ++ bytes ">" ++
       (parameters.map fun parameter => bytes " " ++ parameter.serialize).flatten
   | .Data => bytes "DATA"
   | .Rset => bytes "RSET"
   | .Vrfy user_or_mailbox => bytes "VRFY " ++ user_or_mailbox.serialize
   | .Expn mailing_list => bytes "EXPN " ++ mailing_list.serialize
   | .Help none => bytes "HELP"
   | .Help (some d) => bytes "HELP " ++ d.serialize
   | .Noop none => bytes "NOOP"
   | .Noop (some d) => bytes "NOOP " ++ d.serialize
   | .Quit => bytes "QUIT"
   | .StartTLS => bytes "STARTTLS"
   | .AuthLogin none => bytes "AUTH LOGIN"
   | .AuthLogin (some d) => bytes "AUTH LOGIN " ++ d
   | .AuthPlain none => bytes "AUTH PLAIN"
   | .AuthPlain (some d) => bytes "AUTH PLAIN " ++ d) ++
  bytes "\r\n"

/-- `AuthMechanism`. -/
inductive AuthMechanism where
  | Plain
  | Login
  | GSSAPI
  | CramMD5
  | CramSHA1
  | ScramMD5
  | DigestMD5
  | NTLM
  | Other (s : List Nat)
deriving Repr, DecidableEq

/-- `AuthMechanism::serialize`. -/
def AuthMechanism.serialize : AuthMechanism → List Nat
  | .Plain => bytes "PLAIN"
  | .Login => bytes "LOGIN"
  | .GSSAPI => bytes "GSSAPI"
  | .CramMD5 => bytes "CRAM-MD5"
  | .CramSHA1 => bytes "CRAM-SHA1"
  | .ScramMD5 => bytes "SCRAM-MD5"
  | .DigestMD5 => bytes "DIGEST-MD5"
  | .NTLM => bytes "NTLM"
  | .Other other => other

/-- `Capability`. -/
inductive Capability where
  | EXPN
  | Help
  | EightBitMIME
  | Size (n : Nat)
  | Chunking
  | BinaryMIME
  | Checkpoint
  | DeliverBy
  | Pipelining
  | DSN
  | ETRN
  | EnhancedStatusCodes
  | StartTLS
  | MTRK
  | ATRN
  | Auth (mechanisms : List AuthMechanism)
  | BURL
  | SMTPUTF8
  | RRVS
  | RequireTLS
  | Other (keyword : List Nat) (params : List (List Nat))
deriving Repr, DecidableEq

/-- `Capability::serialize`. -/
def Capability.serialize : Capability → List Nat
  | .EXPN => bytes "EXPN"
  | .Help => bytes "HELP"
  | .EightBitMIME => bytes "8BITMIME"
  | .Size number => bytes "SIZE " ++ natDecimal number
  | .Chunking => bytes "CHUNKING"
  | .BinaryMIME => bytes "BINARYMIME"
  | .Checkpoint => bytes "CHECKPOINT"
  | .DeliverBy => bytes "DELIVERBY"
  | .Pipelining => bytes "PIPELINING"
  | .DSN => bytes "DSN"
  | .ETRN => bytes "ETRN"
  | .EnhancedStatusCodes => bytes "ENHANCEDSTATUSCODES"
  | .StartTLS => bytes "STARTTLS"
  | .MTRK => bytes "MTRK"
  | .ATRN => bytes "ATRN"
  | .Auth mechanisms =>
    match splitLast mechanisms with
    | some (head, tail) =>
      bytes "AUTH " ++ (head.map fun mechanism => mechanism.serialize ++ bytes " ").flatten ++
        tail.serialize
    | none => bytes "AUTH"
  | .BURL => bytes "BURL"
  | .SMTPUTF8 => bytes "SMTPUTF8"
  | .RRVS => bytes "RRVS"
  | .RequireTLS => bytes "REQUIRETLS"
  | .Other keyword params =>
    match splitLast params with
    | some (head, tail) =>
      keyword ++ bytes " " ++ (head.map fun param => param ++ bytes " ").flatten ++ tail
    | none => keyword

/-- `ReplyCode`. -/
inductive ReplyCode where
  | SystemStatus
  | HelpMessage
  | Ready
  | ClosingChannel
  | Ok
  | UserNotLocalWillForward
  | CannotVrfy
  | StartMailInput
  | NotAvailable
  | MailboxTemporarilyUnavailable
  | ProcessingError
  | InsufficientStorage
  | UnableToAccommodateParameters
  | SyntaxError
  | ParameterSyntaxError
  | CommandNotImplemented
  | BadSequence
  | ParameterNotImplemented
  | NoMailService
  | MailboxPermanentlyUnavailable
  | UserNotLocal
  | ExceededStorageAllocation
  | MailboxNameNotAllowed
  | TransactionFailed
  | ParametersNotImplemented
  | Other (v : Nat)
deriving Repr, DecidableEq

/-- `impl From<u16> for ReplyCode`. -/
def ReplyCode.fromU16 (value : Nat) : ReplyCode :=
  match value with
  | 211 => .SystemStatus
  | 214 => .HelpMessage
  | 220 => .Ready
  | 221 => .ClosingChannel
  | 250 => .Ok
  | 251 => .UserNotLocalWillForward
  | 252 => .CannotVrfy
  | 354 => .StartMailInput
  | 421 => .NotAvailable
  | 450 => .MailboxTemporarilyUnavailable
  | 451 => .ProcessingError
  | 452 => .InsufficientStorage
  | 455 => .UnableToAccommodateParameters
  | 500 => .SyntaxError
  | 501 => .ParameterSyntaxError
  | 502 => .CommandNotImplemented
  | 503 => .BadSequence
  | 504 => .ParameterNotImplemented
  | 521 => .NoMailService
  | 550 => .MailboxPermanentlyUnavailable
  | 551 => .UserNotLocal
  | 552 => .ExceededStorageAllocation
  | 553 => .MailboxNameNotAllowed
  | 554 => .TransactionFailed
  | 555 => .ParametersNotImplemented
  | _ => .Other value

/-- `impl From<ReplyCode> for u16`. -/
def ReplyCode.toU16 : ReplyCode → Nat
  | .SystemStatus => 211
  | .HelpMessage => 214
  | .Ready => 220
  | .ClosingChannel => 221
  | .Ok => 250
  | .UserNotLocalWillForward => 251
  | .CannotVrfy => 252
  | .StartMailInput => 354
  | .NotAvailable => 421
  | .MailboxTemporarilyUnavailable => 450
  | .ProcessingError => 451
  | .InsufficientStorage => 452
  | .UnableToAccommodateParameters => 455
  | .SyntaxError => 500
  | .ParameterSyntaxError => 501
  | .CommandNotImplemented => 502
  | .BadSequence => 503
  | .ParameterNotImplemented => 504
  | .NoMailService => 521
  | .MailboxPermanentlyUnavailable => 550
  | .UserNotLocal => 551
  | .ExceededStorageAllocation => 552
  | .MailboxNameNotAllowed => 553
  | .TransactionFailed => 554
  | .ParametersNotImplemented => 555
  | .Other v => v

/-- `is_text_string_byte`: tab or printable US-ASCII (as used by
`TextString::new`; the old `parse/response.rs` embeds the same class
locally in `textstring`). -/
def is_text_string_byte (b : Nat) : Bool :=
  b == 9 || (32 ≤ b && b ≤ 126)

/-- `TextString::new`: construction fails outside the valid byte set. -/
def TextString.new (s : List Nat) : Option (List Nat) :=
  if s.all is_text_string_byte then some s else none

/-- `Response`.  `Other`'s lines are the inner strings of its
`TextString`s (their `Display` writes exactly those bytes). -/
inductive Response where
  | Greeting (domain text : List Nat)
  | Ehlo (domain : List Nat) (greet : Option (List Nat)) (capabilities : List Capability)
  | Other (code : ReplyCode) (lines : List (List Nat))
deriving Repr, DecidableEq

/-- `Response::serialize`. -/
def Response.serialize : Response → List Nat
  | .Greeting domain text =>
    match rustLines text with
    | [] => bytes "220 " ++ domain ++ bytes "\r\n"
    | first :: tail =>
      match splitLast tail with
      | none => bytes "220 " ++ domain ++ bytes " " ++ first ++ bytes "\r\n"
      | some (head, last) =>
        bytes "220-" ++ domain ++ bytes " " ++ first ++ bytes "\r\n" ++
          (head.map fun line => bytes "220-" ++ line ++ bytes "\r\n").flatten ++
          bytes "220 " ++ last ++ bytes "\r\n"
  | .Ehlo domain greet capabilities =>
    let greetB :=
      match greet with
      | some g => bytes " " ++ g
      | none => []
    match splitLast capabilities with
    | some (head, tail) =>
      bytes "250-" ++ domain ++ greetB ++ bytes "\r\n" ++
        (head.map fun capability => bytes "250-" ++ capability.serialize ++ bytes "\r\n").flatten ++
        bytes "250 " ++ tail.serialize ++ bytes "\r\n"
    | none => bytes "250 " ++ domain ++ greetB ++ bytes "\r\n"
  | .Other code lines =>
    let c := natDecimal code.toU16
    ((lines.take (lines.length - 1)).map fun line => c ++ bytes "-" ++ line ++ bytes "\r\n").flatten ++
      match lines.getLast? with
      | some s => c ++ bytes " " ++ s ++ bytes "\r\n"
      | none => c ++ bytes "\r\n"

end Types

namespace Rsp

/-! `src/parse/response.rs`: greeting/EHLO/reply-line grammar (the version
in the snapshot, producing `EhloOkResp` and raw reply-line spans). -/

/-- `EhloOkResp` (the value the old `types.rs` companion of this parser
declared: domain, optional greet, and one `Capability` per ehlo-line). -/
structure EhloOkResp where
  domain : List Nat
  greet : Option (List Nat)
  lines : List Types.Capability
deriving Repr, DecidableEq

/-- `textstring = 1*(%d09 / %d32-126)`. -/
def textstring : BP (List Nat) :=
  pmapRes (takeWhile1P (fun b => b == 9 || (32 ≤ b && b ≤ 126))) from_utf8ASCII

/-- `ehlo-greet = 1*(%d0-9 / %d11-12 / %d14-127)`. -/
def ehlo_greet : BP (List Nat) :=
  pmapRes (takeWhile1P (fun b => b ≤ 9 || b == 11 || b == 12 || (14 ≤ b && b ≤ 127)))
    from_utf8ASCII

/-- `ehlo-keyword = (ALPHA / DIGIT) *(ALPHA / DIGIT / "-")`. -/
def ehlo_keyword : BP (List Nat) :=
  precognize
    (pbind (takeWhileMN 1 1 (fun b => is_ALPHA b || is_DIGIT b)) fun _ =>
      takeWhileP (fun b => is_ALPHA b || is_DIGIT b || b == 45))

/-- `ehlo-param = 1*(%d33-126)`. -/
def ehlo_param : BP (List Nat) :=
  pmapRes (takeWhile1P (fun b => 33 ≤ b && b ≤ 126)) from_utf8ASCII

/-- `auth_mechanism` (ordered case-insensitive alternatives, falling back
to `AuthMechanism::Other`). -/
def auth_mechanism : BP Types.AuthMechanism :=
  altL
    [pvalue .Login (tagNC (bytes "LOGIN")),
     pvalue .Plain (tagNC (bytes "PLAIN")),
     pvalue .CramMD5 (tagNC (bytes "CRAM-MD5")),
     pvalue .CramSHA1 (tagNC (bytes "CRAM-SHA1")),
     pvalue .DigestMD5 (tagNC (bytes "DIGEST-MD5")),
     pvalue .ScramMD5 (tagNC (bytes "SCRAM-MD5")),
     pvalue .GSSAPI (tagNC (bytes "GSSAPI")),
     pvalue .NTLM (tagNC (bytes "NTLM")),
     pmap (fun param => Types.AuthMechanism.Other param) ehlo_param]

/-- `ehlo-line = ehlo-keyword *( SP ehlo-param )` as implemented: an
ordered alternative of recognized capability keywords (with `SIZE <u32>`
special-cased and `AUTH` taking a space- or `=`-separated mechanism list),
falling through to `Capability::Other` with an optional SP- or
`=`-introduced parameter list. -/
def ehlo_line : BP Types.Capability :=
  altL
    [pvalue .EXPN (tagNC (bytes "EXPN")),
     pvalue .Help (tagNC (bytes "HELP")),
     pvalue .EightBitMIME (tagNC (bytes "8BITMIME")),
     pmap Types.Capability.Size (ppreceded (tagNC (bytes "SIZE ")) ModParse.number),
     pvalue .Chunking (tagNC (bytes "CHUNKING")),
     pvalue .BinaryMIME (tagNC (bytes "BINARYMIME")),
     pvalue .Checkpoint (tagNC (bytes "CHECKPOINT")),
     pvalue .DeliverBy (tagNC (bytes "DELIVERBY")),
     pvalue .Pipelining (tagNC (bytes "PIPELINING")),
     pvalue .DSN (tagNC (bytes "DSN")),
     pvalue .ETRN (tagNC (bytes "ETRN")),
     pvalue .EnhancedStatusCodes (tagNC (bytes "ENHANCEDSTATUSCODES")),
     pvalue .StartTLS (tagNC (bytes "STARTTLS")),
     pvalue .MTRK (tagNC (bytes "MTRK")),
     pvalue .ATRN (tagNC (bytes "ATRN")),
     pmap Types.Capability.Auth
       (pbind (tagNC (bytes "AUTH")) fun _ =>
         pbind (altL [tagNC (bytes " "), tagNC (bytes "=")]) fun _ =>
           sepList0 SPp auth_mechanism),
     pvalue .BURL (tagNC (bytes "BURL")),
     pvalue .SMTPUTF8 (tagNC (bytes "SMTPUTF8")),
     pvalue .RRVS (tagNC (bytes "RRVS")),
     pvalue .RequireTLS (tagNC (bytes "REQUIRETLS")),
     pbind (pmapRes ehlo_keyword from_utf8ASCII) fun keyword =>
       pmap (fun params => Types.Capability.Other keyword (params.getD []))
         (popt
           (ppreceded (altL [SPp, tagP (bytes "=")])
             (sepList0 SPp ehlo_param)))]

/-- `ehlo-ok-rsp`: single-line `250 Domain [SP greet] CRLF`, or multi-line
`250-Domain [SP greet] CRLF *(250- ehlo-line CRLF) 250 SP ehlo-line CRLF`. -/
def ehlo_ok_rsp : BP EhloOkResp :=
  altL
    [pbind (tagP (bytes "250 ")) fun _ =>
       pbind ModParse.Domain fun domain =>
         pbind (popt (ppreceded SPp ehlo_greet)) fun greet =>
           pmap (fun _ => EhloOkResp.mk domain greet []) CRLFp,
     pbind (tagP (bytes "250-")) fun _ =>
       pbind ModParse.Domain fun domain =>
         pbind (popt (ppreceded SPp ehlo_greet)) fun greet =>
           pbind CRLFp fun _ =>
             pbind (many0P (pdelimited (tagP (bytes "250-")) ehlo_line CRLFp)) fun ls =>
               pbind (tagP (bytes "250 ")) fun _ =>
                 pbind ehlo_line fun line =>
                   pmap (fun _ => EhloOkResp.mk domain greet (ls ++ [line])) CRLFp]

/-- `Reply-code = %x32-35 %x30-35 %x30-39` — as implemented (see the
`FIXME: do not accept all codes.`): any three ASCII digits, converted with
`u16::from_str_radix`. -/
def Reply_code : BP Nat :=
  pmapRes (pmapRes (takeWhileMN 3 3 is_DIGIT) from_utf8ASCII) parseU16

/-- `Reply-line = *( Reply-code "-" [ textstring ] CRLF )
Reply-code [ SP textstring ] CRLF` (recognized). -/
def Reply_line : BP (List Nat) :=
  precognize
    (pbind
      (many0P
        (pbind Reply_code fun _ =>
          pbind (tagP (bytes "-")) fun _ =>
            pbind (popt textstring) fun _ => CRLFp)) fun _ =>
      pbind Reply_code fun _ =>
        pbind (popt (pbind SPp fun _ => textstring)) fun _ => CRLFp)

end Rsp

/-- The 25 named `ReplyCode` variants. -/
def namedReplyCodes : List Types.ReplyCode :=
  [.SystemStatus, .HelpMessage, .Ready, .ClosingChannel, .Ok,
   .UserNotLocalWillForward, .CannotVrfy, .StartMailInput, .NotAvailable,
   .MailboxTemporarilyUnavailable, .ProcessingError, .InsufficientStorage,
   .UnableToAccommodateParameters, .SyntaxError, .ParameterSyntaxError,
   .CommandNotImplemented, .BadSequence, .ParameterNotImplemented,
   .NoMailService, .MailboxPermanentlyUnavailable, .UserNotLocal,
   .ExceededStorageAllocation, .MailboxNameNotAllowed, .TransactionFailed,
   .ParametersNotImplemented]

/-- The 25 numeric codes carried by the named `ReplyCode` variants. -/
def namedReplyCodeValues : List Nat :=
  [211, 214, 220, 221, 250, 251, 252, 354, 421, 450, 451, 452, 455,
   500, 501, 502, 503, 504, 521, 550, 551, 552, 553, 554, 555]

/-! ### Streaming invariants

nom's streaming combinators never decide success or failure *at* the end
of the input: running out of bytes is `Incomplete`.  Consequently a
success is stable under appending more input (`Mono`), an `Err::Error` is
stable under appending more input (`ErrSt`), and the remaining input of a
success is never longer than the input (`Suff`).  Together these yield
the streaming-prefix law: every strict prefix of the consumed part of a
successful parse returns `Incomplete` (claim C2). -/

/-- Success is stable under input extension, keeping the value. -/
def Mono {α : Type} (p : BP α) : Prop :=
  ∀ a b r v, p a = .done r v → p (a ++ b) = .done (r ++ b) v

/-- `Err::Error` is stable under input extension. -/
def ErrSt {α : Type} (p : BP α) : Prop :=
  ∀ a b, p a = .error → p (a ++ b) = .error

/-- The remaining input of a success is at most as long as the input. -/
def Suff {α : Type} (p : BP α) : Prop :=
  ∀ a r v, p a = .done r v → r.length ≤ a.length

/-- The conjunction of the three streaming invariants. -/
def Good {α : Type} (p : BP α) : Prop :=
  Mono p ∧ ErrSt p ∧ Suff p

/-! ## Theorems -/

section ListHelperLemmas

theorem splitLast_append {α : Type} (mid : List α) (last : α) :
    splitLast (mid ++ [last]) = some (mid, last) := by
  induction mid with
  | nil => rfl
  | cons a mid ih => simp [splitLast, ih]

theorem linesGo_no_newline (rest : List Nat) :
    ∀ acc : List Nat, (10 ∈ rest → False) → rest ≠ [] →
      linesGo acc rest = [acc.reverse ++ rest] := by
  induction rest with
  | nil => intro acc _ h; exact absurd rfl h
  | cons c rs ih =>
    intro acc hnl _
    have hc : c ≠ 10 := fun h => hnl (h ▸ List.mem_cons_self c rs)
    rw [linesGo, if_neg hc]
    cases rs with
    | nil => simp [linesGo]
    | cons d rs2 =>
      rw [ih (c :: acc) (fun h => hnl (List.mem_cons_of_mem c h)) (by simp)]
      simp

theorem rustLines_no_newline (text : List Nat) (hnl : 10 ∈ text → False)
    (hne : text ≠ []) : rustLines text = [text] := by
  simpa using linesGo_no_newline text [] hnl hne

end ListHelperLemmas

/-- C1: serialize-then-parse is *not* the identity on `Command` values.
For `Command::Mail { reverse_path: "userx@y.foo.org", parameters: [] }`,
`Command::serialize` (types.rs) emits `MAIL FROM:<userx@y.foo.org>\r\n`,
but the `command` parser (parse/command.rs) re-parses those bytes into a
`Mail` whose path payload is the raw *bracketed* span
`<userx@y.foo.org>` (and a `None` parameters payload), not a value equal
to the original. -/
theorem claim_C1 :
    Types.Command.serialize (.Mail (bytes "userx@y.foo.org") []) =
      bytes "MAIL FROM:<userx@y.foo.org>\r\n" ∧
    Cmd.command (Types.Command.serialize (.Mail (bytes "userx@y.foo.org") [])) =
      .done [] (.Mail (bytes "<userx@y.foo.org>") none) ∧
    bytes "<userx@y.foo.org>" ≠ bytes "userx@y.foo.org" := by
  refine ⟨by decide, by decide, by decide⟩

/-- C3: parsing `MAIL FROM:<userx@y.foo.org>\r\n???` succeeds with
remaining `???`, but the produced `Mail` carries the bracket-*included*
span `<userx@y.foo.org>` (via `recognize` over `Reverse_path`) and no
parameter list — not the bracket-free string the spec describes. -/
theorem claim_C3 :
    Cmd.command (bytes "MAIL FROM:<userx@y.foo.org>\r\n???") =
      .done (bytes "???") (.Mail (bytes "<userx@y.foo.org>") none) := by
  decide

/-- C9: in `ehlo_ok_rsp`, the final capability line `HELPDESK` is eaten up
to `HELP` by the committed `tag_no_case("HELP")` alternative of
`ehlo_line`, the required CRLF then fails on `DESK`, and the whole parse
errors instead of producing `Capability::Other { keyword: "HELPDESK" }`. -/
theorem claim_C9 :
    Rsp.ehlo_ok_rsp (bytes "250-example.org\r\n250 HELPDESK\r\n") = .error ∧
    Rsp.ehlo_line (bytes "HELPDESK\r\n") =
      .done (bytes "DESK\r\n") Types.Capability.Help := by
  refine ⟨by decide, by decide⟩

/-- C10: serializing `Response::Other { code, lines: [] }` writes exactly
the decimal reply code followed by CRLF — no trailing space, no text; in
particular `ReplyCode::StartMailInput` with no lines gives `354\r\n`. -/
theorem claim_C10 :
    (∀ code : Types.ReplyCode,
      Types.Response.serialize (.Other code []) =
        natDecimal code.toU16 ++ bytes "\r\n") ∧
    Types.Response.serialize (.Other .StartMailInput []) = bytes "354\r\n" :=
  ⟨fun _ => rfl, by decide⟩

/-- C5: the `u16 ↔ ReplyCode` conversions are mutually inverse: named
variants survive a round trip through `u16`, and any `u16` outside the 25
named codes survives a round trip through `ReplyCode` (landing in
`Other`). -/
theorem claim_C5 :
    (∀ r ∈ namedReplyCodes, Types.ReplyCode.fromU16 r.toU16 = r) ∧
    (∀ v : Nat, v < 65536 → (v ∈ namedReplyCodeValues → False) →
      (Types.ReplyCode.fromU16 v).toU16 = v) := by
  constructor
  · decide
  · intro v _ _
    unfold Types.ReplyCode.fromU16
    split <;> rfl

theorem claim_C5_witness :
    Types.ReplyCode.fromU16 (Types.ReplyCode.Ready.toU16) = .Ready ∧
    (Types.ReplyCode.fromU16 999).toU16 = 999 :=
  ⟨claim_C5.1 .Ready (by decide), claim_C5.2 999 (by decide) (by decide)⟩

/-- C6: the `Greeting` serializer arm.  Single-line text is emitted as
`220 <domain> <text>\r\n`; empty text as `220 <domain>\r\n`; text with at
least two lines as `220-<domain> <first>\r\n`, `220-<line>\r\n` for every
middle line and `220 <last>\r\n`; concretely, domain `example.org` with
text `A\nB\nC` serializes to `220-example.org A\r\n220-B\r\n220 C\r\n`. -/
theorem claim_C6 :
    (∀ domain text : List Nat, (10 ∈ text → False) → text ≠ [] →
      Types.Response.serialize (.Greeting domain text) =
        bytes "220 " ++ domain ++ bytes " " ++ text ++ bytes "\r\n") ∧
    (∀ domain : List Nat,
      Types.Response.serialize (.Greeting domain []) =
        bytes "220 " ++ domain ++ bytes "\r\n") ∧
    (∀ (domain text first last : List Nat) (mid : List (List Nat)),
      rustLines text = first :: (mid ++ [last]) →
      Types.Response.serialize (.Greeting domain text) =
        bytes "220-" ++ domain ++ bytes " " ++ first ++ bytes "\r\n" ++
          (mid.map fun line => bytes "220-" ++ line ++ bytes "\r\n").flatten ++
          bytes "220 " ++ last ++ bytes "\r\n") ∧
    Types.Response.serialize (.Greeting (bytes "example.org") (bytes "A\nB\nC")) =
      bytes "220-example.org A\r\n220-B\r\n220 C\r\n" := by
  refine ⟨?_, ?_, ?_, by decide⟩
  · intro domain text h1 h2
    unfold Types.Response.serialize
    dsimp only
    rw [rustLines_no_newline text h1 h2]
    rfl
  · intro domain
    rfl
  · intro domain text first last mid h
    unfold Types.Response.serialize
    dsimp only
    rw [h]
    dsimp only
    rw [splitLast_append]

theorem claim_C6_witness :
    Types.Response.serialize (.Greeting (bytes "d") (bytes "A")) =
      bytes "220 " ++ bytes "d" ++ bytes " " ++ bytes "A" ++ bytes "\r\n" :=
  claim_C6.1 (bytes "d") (bytes "A") (by decide) (by decide)

namespace Utils

theorem escB_bs (s : List Nat) :
    escBackslashGo (92 :: s) = 92 :: 92 :: escBackslashGo s := by
  simp [escBackslashGo]

theorem escB_ne (c : Nat) (s : List Nat) (h : c ≠ 92) :
    escBackslashGo (c :: s) = c :: escBackslashGo s := by
  simp [escBackslashGo, h]

theorem escQ_q (s : List Nat) :
    escQuoteGo (34 :: s) = 92 :: 34 :: escQuoteGo s := by
  simp [escQuoteGo]

theorem escQ_ne (c : Nat) (s : List Nat) (h : c ≠ 34) :
    escQuoteGo (c :: s) = c :: escQuoteGo s := by
  simp [escQuoteGo, h]

theorem unescB_pair (l : List Nat) :
    unescBackslashGo (92 :: 92 :: l) = 92 :: unescBackslashGo l := by
  simp [unescBackslashGo]

theorem unescB_cons_ne (c : Nat) (l : List Nat) (h : c ≠ 92) :
    unescBackslashGo (c :: l) = c :: unescBackslashGo l := by
  cases l with
  | nil => rfl
  | cons d l2 =>
    have hc : ¬(c = 92 ∧ d = 92) := fun h2 => h h2.1
    simp only [unescBackslashGo, if_neg hc]

theorem unescB_bs_ne (d : Nat) (l : List Nat) (h : d ≠ 92) :
    unescBackslashGo (92 :: d :: l) = 92 :: unescBackslashGo (d :: l) := by
  simp only [unescBackslashGo]
  rw [if_neg (by simp [h])]

theorem unescQ_pair (l : List Nat) :
    unescQuoteGo (92 :: 34 :: l) = 34 :: unescQuoteGo l := by
  simp [unescQuoteGo]

theorem unescQ_cons_ne (c : Nat) (l : List Nat) (h : c ≠ 92) :
    unescQuoteGo (c :: l) = c :: unescQuoteGo l := by
  cases l with
  | nil => rfl
  | cons d l2 =>
    have hc : ¬(c = 92 ∧ d = 34) := fun h2 => h h2.1
    simp only [unescQuoteGo, if_neg hc]

theorem unescQ_bs_ne (d : Nat) (l : List Nat) (h : d ≠ 34) :
    unescQuoteGo (92 :: d :: l) = 92 :: unescQuoteGo (d :: l) := by
  simp only [unescQuoteGo]
  rw [if_neg (by simp [h])]

/-- Core of the quoted-string involution: unescaping undoes escaping, and
(to control the left-to-right scan) the once-unescaped escape of a string
never starts with a bare double quote. -/
theorem escRound (s : List Nat) :
    unescQuoteGo (unescBackslashGo (escQuoteGo (escBackslashGo s))) = s ∧
    (unescBackslashGo (escQuoteGo (escBackslashGo s))).head? ≠ some 34 := by
  induction s with
  | nil => exact ⟨rfl, by simp [escBackslashGo, escQuoteGo, unescBackslashGo]⟩
  | cons c s ih =>
    by_cases h92 : c = 92
    · subst h92
      rw [escB_bs, escQ_ne 92 _ (by decide), escQ_ne 92 _ (by decide), unescB_pair]
      refine ⟨?_, by simp⟩
      cases hu : unescBackslashGo (escQuoteGo (escBackslashGo s)) with
      | nil =>
        have hs : s = [] := by
          have h1 := ih.1
          rw [hu] at h1
          simpa [unescQuoteGo] using h1.symm
        subst hs
        rfl
      | cons d u =>
        have hd : d ≠ 34 := by
          have h2 := ih.2
          rw [hu] at h2
          simpa using h2
        rw [unescQ_bs_ne d u hd, ← hu, ih.1]
    · by_cases h34 : c = 34
      · subst h34
        rw [escB_ne 34 _ (by decide), escQ_q, unescB_bs_ne 34 _ (by decide),
          unescB_cons_ne 34 _ (by decide)]
        exact ⟨by rw [unescQ_pair, ih.1], by simp⟩
      · rw [escB_ne c _ h92, escQ_ne c _ h34, unescB_cons_ne c _ h92]
        exact ⟨by rw [unescQ_cons_ne c _ h92, ih.1], by simp [h34]⟩

theorem escB_id (s : List Nat) (h : 92 ∈ s → False) : escBackslashGo s = s := by
  induction s with
  | nil => rfl
  | cons c s ih =>
    rw [escB_ne c s (fun hc => h (hc ▸ List.mem_cons_self c s)),
      ih (fun hm => h (List.mem_cons_of_mem c hm))]

theorem escQ_id (s : List Nat) (h : 34 ∈ s → False) : escQuoteGo s = s := by
  induction s with
  | nil => rfl
  | cons c s ih =>
    rw [escQ_ne c s (fun hc => h (hc ▸ List.mem_cons_self c s)),
      ih (fun hm => h (List.mem_cons_of_mem c hm))]

theorem unescB_id (s : List Nat) (h : hasPair 92 92 s = false) :
    unescBackslashGo s = s := by
  induction s with
  | nil => rfl
  | cons c s ih =>
    cases s with
    | nil => rfl
    | cons d s2 =>
      rw [hasPair] at h
      simp only [Bool.or_eq_false_iff, Bool.and_eq_false_iff, beq_eq_false_iff_ne,
        ne_eq] at h
      have hcd : ¬(c = 92 ∧ d = 92) := by tauto
      rw [unescBackslashGo, if_neg hcd]
      have h2 : hasPair 92 92 (d :: s2) = false := by
        rcases h with ⟨_, h2⟩
        simpa using h2
      rw [ih h2]

theorem unescQ_id (s : List Nat) (h : hasPair 92 34 s = false) :
    unescQuoteGo s = s := by
  induction s with
  | nil => rfl
  | cons c s ih =>
    cases s with
    | nil => rfl
    | cons d s2 =>
      rw [hasPair] at h
      simp only [Bool.or_eq_false_iff, Bool.and_eq_false_iff, beq_eq_false_iff_ne,
        ne_eq] at h
      have hcd : ¬(c = 92 ∧ d = 34) := by tauto
      rw [unescQuoteGo, if_neg hcd]
      have h2 : hasPair 92 34 (d :: s2) = false := by
        rcases h with ⟨_, h2⟩
        simpa using h2
      rw [ih h2]

theorem escape_eq (s : List Nat) :
    escape_quoted s = escQuoteGo (escBackslashGo s) := by
  have key : ∀ t : List Nat, (if t.contains 34 then escQuoteGo t else t) = escQuoteGo t := by
    intro t
    by_cases hq : t.contains 34
    · rw [if_pos hq]
    · rw [if_neg hq, escQ_id t (fun hm => hq (by simpa using hm))]
  unfold escape_quoted
  by_cases hc : s.contains 92
  · simp only [hc, if_true]
    exact key _
  · simp only [hc, if_false]
    rw [escB_id s (fun hm => hc (by simpa using hm))]
    exact key s

theorem unescape_eq (s : List Nat) :
    unescape_quoted s = unescQuoteGo (unescBackslashGo s) := by
  have key : ∀ t : List Nat, (if hasPair 92 34 t then unescQuoteGo t else t) = unescQuoteGo t := by
    intro t
    by_cases hq : hasPair 92 34 t
    · rw [if_pos hq]
    · rw [if_neg hq, unescQ_id t (by simpa using hq)]
  unfold unescape_quoted
  by_cases hc : hasPair 92 92 s
  · simp only [hc, if_true]
    exact key _
  · simp only [hc, if_false]
    rw [unescB_id s (by simpa using hc)]
    exact key s

end Utils

/-- C4: for every string over {SP, qtextSMTP, backslash, double-quote},
`unescape_quoted (escape_quoted s) = s`. -/
theorem claim_C4 (s : List Nat)
    (_h : ∀ b ∈ s, b = 32 ∨ Cmd.is_qtextSMTP b = true ∨ b = 92 ∨ b = 34) :
    Utils.unescape_quoted (Utils.escape_quoted s) = s := by
  rw [Utils.escape_eq, Utils.unescape_eq]
  exact (Utils.escRound s).1

/-- C4 at a concrete input: the decoded string holding a backslash-quote
pair and doubled backslashes survives the round trip. -/
theorem claim_C4_witness :
    Utils.unescape_quoted (Utils.escape_quoted (bytes "a\\\"b \\\\ c")) =
      bytes "a\\\"b \\\\ c" :=
  claim_C4 (bytes "a\\\"b \\\\ c") (by decide)

section StreamingFramework

theorem altL_cons_done {α : Type} (p : BP α) (ps : List (BP α)) (input rest : List Nat)
    (v : α) (h : p input = .done rest v) : altL (p :: ps) input = .done rest v := by
  simp [altL, h]

theorem altL_cons_error {α : Type} (p : BP α) (ps : List (BP α)) (input : List Nat)
    (h : p input = .error) : altL (p :: ps) input = altL ps input := by
  simp [altL, h]

theorem scanWhile_parts (p : Nat → Bool) (l t d : List Nat)
    (h : scanWhile p l = some (t, d)) : t ++ d = l := by
  induction l generalizing t d with
  | nil => simp [scanWhile] at h
  | cons c rest ih =>
    by_cases hc : p c
    · rw [scanWhile, if_pos hc] at h
      cases hs : scanWhile p rest with
      | none => rw [hs] at h; simp at h
      | some td =>
        obtain ⟨t2, d2⟩ := td
        rw [hs] at h
        simp only [Option.some.injEq, Prod.mk.injEq] at h
        obtain ⟨rfl, rfl⟩ := h
        simpa using ih t2 d2 hs
    · rw [scanWhile, if_neg hc] at h
      simp only [Option.some.injEq, Prod.mk.injEq] at h
      obtain ⟨rfl, rfl⟩ := h
      rfl

theorem scanWhile_some_append (p : Nat → Bool) (a b t d : List Nat)
    (h : scanWhile p a = some (t, d)) : scanWhile p (a ++ b) = some (t, d ++ b) := by
  induction a generalizing t d with
  | nil => simp [scanWhile] at h
  | cons c rest ih =>
    by_cases hc : p c
    · rw [scanWhile, if_pos hc] at h
      rw [List.cons_append, scanWhile, if_pos hc]
      cases hs : scanWhile p rest with
      | none => rw [hs] at h; simp at h
      | some td =>
        obtain ⟨t2, d2⟩ := td
        rw [hs] at h
        simp only [Option.some.injEq, Prod.mk.injEq] at h
        obtain ⟨rfl, rfl⟩ := h
        rw [ih t2 d2 hs]
    · rw [scanWhile, if_neg hc] at h
      simp only [Option.some.injEq, Prod.mk.injEq] at h
      obtain ⟨rfl, rfl⟩ := h
      rw [List.cons_append, scanWhile, if_neg hc]

theorem scanWhile_none_append (p : Nat → Bool) (a b : List Nat)
    (h : scanWhile p a = none) :
    scanWhile p (a ++ b) =
      match scanWhile p b with
      | some (t, d) => some (a ++ t, d)
      | none => none := by
  induction a with
  | nil =>
    simp only [List.nil_append]
    cases hs : scanWhile p b with
    | none => simp
    | some td => obtain ⟨t, d⟩ := td; simp
  | cons c rest ih =>
    by_cases hc : p c
    · rw [scanWhile, if_pos hc] at h
      cases hs : scanWhile p rest with
      | some td => obtain ⟨t2, d2⟩ := td; rw [hs] at h; simp at h
      | none =>
        rw [List.cons_append, scanWhile, if_pos hc, ih hs]
        cases hb : scanWhile p b with
        | none => simp
        | some td => obtain ⟨t, d⟩ := td; simp
    · rw [scanWhile, if_neg hc] at h
      simp at h

theorem scanWhile_none_all (p : Nat → Bool) (a : List Nat)
    (h : scanWhile p a = none) : ∀ x ∈ a, p x = true := by
  induction a with
  | nil => intro x hx; simp at hx
  | cons c rest ih =>
    intro x hx
    by_cases hc : p c
    · rw [scanWhile, if_pos hc] at h
      cases hs : scanWhile p rest with
      | some td => obtain ⟨t2, d2⟩ := td; rw [hs] at h; simp at h
      | none =>
        rcases List.mem_cons.mp hx with rfl | hx2
        · exact hc
        · exact ih hs x hx2
    · rw [scanWhile, if_neg hc] at h
      simp at h

theorem scanWhile_front (p : Nat → Bool) (ds : List Nat) (c : Nat) (rest : List Nat)
    (h2 : ∀ b ∈ ds, p b = true) (h3 : p c = false) :
    scanWhile p (ds ++ c :: rest) = some (ds, c :: rest) := by
  induction ds with
  | nil => simp [scanWhile, h3]
  | cons a ds ih =>
    rw [List.cons_append, scanWhile, if_pos (h2 a (List.mem_cons_self a ds)),
      ih (fun b hb => h2 b (List.mem_cons_of_mem a hb))]

end StreamingFramework

section CombinatorGood

theorem good_tagBy (eqb : Nat → Nat → Bool) (t : List Nat) : Good (tagBy eqb t) := by
  refine ⟨?_, ?_, ?_⟩
  · intro a b r v h
    induction t generalizing a r v with
    | nil =>
      rw [tagBy] at h ⊢
      cases h
      rfl
    | cons p ps ih =>
      cases a with
      | nil => rw [tagBy] at h; cases h
      | cons c cs =>
        rw [tagBy] at h
        show tagBy eqb (p :: ps) (c :: (cs ++ b)) = .done (r ++ b) v
        rw [tagBy]
        by_cases he : eqb p c
        · rw [if_pos he] at h ⊢
          cases ht : tagBy eqb ps cs with
          | done r2 v2 =>
            rw [ht] at h
            cases h
            rw [ih _ _ _ ht]
          | incomplete => rw [ht] at h; cases h
          | error => rw [ht] at h; cases h
        · rw [if_neg he] at h; cases h
  · intro a b h
    induction t generalizing a with
    | nil => rw [tagBy] at h; cases h
    | cons p ps ih =>
      cases a with
      | nil => rw [tagBy] at h; cases h
      | cons c cs =>
        rw [tagBy] at h
        show tagBy eqb (p :: ps) (c :: (cs ++ b)) = .error
        rw [tagBy]
        by_cases he : eqb p c
        · rw [if_pos he] at h ⊢
          cases ht : tagBy eqb ps cs with
          | done r2 v2 => rw [ht] at h; cases h
          | incomplete => rw [ht] at h; cases h
          | error => rw [ih cs ht]
        · rw [if_neg he]
  · intro a r v h
    induction t generalizing a r v with
    | nil =>
      rw [tagBy] at h
      cases h
      exact Nat.le_refl _
    | cons p ps ih =>
      cases a with
      | nil => rw [tagBy] at h; cases h
      | cons c cs =>
        rw [tagBy] at h
        by_cases he : eqb p c
        · rw [if_pos he] at h
          cases ht : tagBy eqb ps cs with
          | done r2 v2 =>
            rw [ht] at h
            cases h
            have := ih _ _ _ ht
            simp only [List.length_cons]
            omega
          | incomplete => rw [ht] at h; cases h
          | error => rw [ht] at h; cases h
        · rw [if_neg he] at h; cases h

theorem good_tagP (t : List Nat) : Good (tagP t) := good_tagBy _ t

theorem good_tagNC (t : List Nat) : Good (tagNC t) := good_tagBy _ t

theorem good_takeWhileP (p : Nat → Bool) : Good (takeWhileP p) := by
  refine ⟨?_, ?_, ?_⟩
  · intro a b r v h
    rw [takeWhileP] at h ⊢
    cases hs : scanWhile p a with
    | none => rw [hs] at h; cases h
    | some td =>
      obtain ⟨t2, d2⟩ := td
      rw [hs] at h
      cases h
      rw [scanWhile_some_append p a b _ _ hs]
  · intro a b h
    rw [takeWhileP] at h
    cases hs : scanWhile p a with
    | none => rw [hs] at h; cases h
    | some td => obtain ⟨t2, d2⟩ := td; rw [hs] at h; cases h
  · intro a r v h
    rw [takeWhileP] at h
    cases hs : scanWhile p a with
    | none => rw [hs] at h; cases h
    | some td =>
      obtain ⟨t2, d2⟩ := td
      rw [hs] at h
      cases h
      have hp := scanWhile_parts p a _ _ hs
      have := congrArg List.length hp
      simp only [List.length_append] at this
      omega

theorem good_takeWhile1P (p : Nat → Bool) : Good (takeWhile1P p) := by
  refine ⟨?_, ?_, ?_⟩
  · intro a b r v h
    rw [takeWhile1P] at h ⊢
    cases hs : scanWhile p a with
    | none => rw [hs] at h; cases h
    | some td =>
      obtain ⟨t2, d2⟩ := td
      rw [hs] at h
      rw [scanWhile_some_append p a b _ _ hs]
      cases t2 with
      | nil => cases h
      | cons x xs => cases h; rfl
  · intro a b h
    rw [takeWhile1P] at h ⊢
    cases hs : scanWhile p a with
    | none => rw [hs] at h; cases h
    | some td =>
      obtain ⟨t2, d2⟩ := td
      rw [hs] at h
      rw [scanWhile_some_append p a b _ _ hs]
      cases t2 with
      | nil => rfl
      | cons x xs => cases h
  · intro a r v h
    rw [takeWhile1P] at h
    cases hs : scanWhile p a with
    | none => rw [hs] at h; cases h
    | some td =>
      obtain ⟨t2, d2⟩ := td
      rw [hs] at h
      have hp := scanWhile_parts p a _ _ hs
      have hl := congrArg List.length hp
      simp only [List.length_append] at hl
      cases t2 with
      | nil => cases h
      | cons x xs => cases h; omega

theorem good_takeWhileMN (m n : Nat) (p : Nat → Bool) (hmn : m ≤ n) :
    Good (takeWhileMN m n p) := by
  refine ⟨?_, ?_, ?_⟩
  · intro a b r v h
    rw [takeWhileMN] at h ⊢
    cases hs : scanWhile p a with
    | some td =>
      obtain ⟨t2, d2⟩ := td
      rw [hs] at h
      dsimp only at h
      rw [scanWhile_some_append p a b _ _ hs]
      dsimp only
      by_cases hm : t2.length < m
      · rw [if_pos hm] at h; cases h
      · rw [if_neg hm] at h ⊢
        cases h
        rw [List.append_assoc]
    | none =>
      rw [hs] at h
      dsimp only at h
      by_cases hn : n ≤ a.length
      · rw [if_pos hn] at h
        cases h
        rw [scanWhile_none_append p a b hs]
        cases hb : scanWhile p b with
        | some td =>
          obtain ⟨t2, d2⟩ := td
          dsimp only
          rw [if_neg (by simp only [List.length_append]; omega : ¬ (a ++ t2).length < m)]
          rw [List.take_append_of_le_length hn, List.drop_append_of_le_length hn,
            List.append_assoc, scanWhile_parts p b _ _ hb]
        | none =>
          dsimp only
          rw [if_pos (by simp only [List.length_append]; omega : n ≤ (a ++ b).length)]
          rw [List.take_append_of_le_length hn, List.drop_append_of_le_length hn]
      · rw [if_neg hn] at h; cases h
  · intro a b h
    rw [takeWhileMN] at h ⊢
    cases hs : scanWhile p a with
    | some td =>
      obtain ⟨t2, d2⟩ := td
      rw [hs] at h
      dsimp only at h
      rw [scanWhile_some_append p a b _ _ hs]
      dsimp only
      by_cases hm : t2.length < m
      · rw [if_pos hm]
      · rw [if_neg hm] at h; cases h
    | none =>
      rw [hs] at h
      dsimp only at h
      by_cases hn : n ≤ a.length
      · rw [if_pos hn] at h; cases h
      · rw [if_neg hn] at h; cases h
  · intro a r v h
    rw [takeWhileMN] at h
    cases hs : scanWhile p a with
    | some td =>
      obtain ⟨t2, d2⟩ := td
      rw [hs] at h
      dsimp only at h
      by_cases hm : t2.length < m
      · rw [if_pos hm] at h; cases h
      · rw [if_neg hm] at h
        cases h
        have hp := scanWhile_parts p a _ _ hs
        have hl := congrArg List.length hp
        simp only [List.length_append] at hl
        simp only [List.length_append, List.length_drop]
        omega
    | none =>
      rw [hs] at h
      dsimp only at h
      by_cases hn : n ≤ a.length
      · rw [if_pos hn] at h
        cases h
        simp only [List.length_drop]
        omega
      · rw [if_neg hn] at h; cases h

end CombinatorGood

section CombinatorGood2

theorem good_pbind {α β : Type} (p : BP α) (f : α → BP β)
    (hp : Good p) (hf : ∀ v, Good (f v)) : Good (pbind p f) := by
  refine ⟨?_, ?_, ?_⟩
  · intro a b r v h
    rw [pbind] at h ⊢
    cases hq : p a with
    | done r1 v1 =>
      rw [hq] at h
      rw [hp.1 _ b _ _ hq]
      exact (hf v1).1 _ b _ _ h
    | incomplete => rw [hq] at h; cases h
    | error => rw [hq] at h; cases h
  · intro a b h
    rw [pbind] at h ⊢
    cases hq : p a with
    | done r1 v1 =>
      rw [hq] at h
      rw [hp.1 _ b _ _ hq]
      exact (hf v1).2.1 _ b h
    | incomplete => rw [hq] at h; cases h
    | error => rw [hp.2.1 _ b hq]
  · intro a r v h
    rw [pbind] at h
    cases hq : p a with
    | done r1 v1 =>
      rw [hq] at h
      exact Nat.le_trans ((hf v1).2.2 _ _ _ h) (hp.2.2 _ _ _ hq)
    | incomplete => rw [hq] at h; cases h
    | error => rw [hq] at h; cases h

theorem good_pmap {α β : Type} (f : α → β) (p : BP α) (hp : Good p) :
    Good (pmap f p) := by
  refine ⟨?_, ?_, ?_⟩
  · intro a b r v h
    rw [pmap] at h ⊢
    cases hq : p a with
    | done r1 v1 =>
      rw [hq] at h
      cases h
      rw [hp.1 _ b _ _ hq]
    | incomplete => rw [hq] at h; cases h
    | error => rw [hq] at h; cases h
  · intro a b h
    rw [pmap] at h ⊢
    cases hq : p a with
    | done r1 v1 => rw [hq] at h; cases h
    | incomplete => rw [hq] at h; cases h
    | error => rw [hp.2.1 _ b hq]
  · intro a r v h
    rw [pmap] at h
    cases hq : p a with
    | done r1 v1 =>
      rw [hq] at h
      cases h
      exact hp.2.2 _ _ _ hq
    | incomplete => rw [hq] at h; cases h
    | error => rw [hq] at h; cases h

theorem good_pvalue {α β : Type} (v : β) (p : BP α) (hp : Good p) :
    Good (pvalue v p) :=
  good_pmap _ p hp

theorem good_pmapRes {α β : Type} (p : BP α) (f : α → Option β) (hp : Good p) :
    Good (pmapRes p f) := by
  refine ⟨?_, ?_, ?_⟩
  · intro a b r v h
    rw [pmapRes] at h ⊢
    cases hq : p a with
    | done r1 v1 =>
      rw [hq] at h
      dsimp only at h
      rw [hp.1 _ b _ _ hq]
      dsimp only
      cases hv : f v1 with
      | some w => rw [hv] at h; cases h; rfl
      | none => rw [hv] at h; cases h
    | incomplete => rw [hq] at h; cases h
    | error => rw [hq] at h; cases h
  · intro a b h
    rw [pmapRes] at h ⊢
    cases hq : p a with
    | done r1 v1 =>
      rw [hq] at h
      dsimp only at h
      rw [hp.1 _ b _ _ hq]
      dsimp only
      cases hv : f v1 with
      | some w => rw [hv] at h; cases h
      | none => rfl
    | incomplete => rw [hq] at h; cases h
    | error => rw [hp.2.1 _ b hq]
  · intro a r v h
    rw [pmapRes] at h
    cases hq : p a with
    | done r1 v1 =>
      rw [hq] at h
      dsimp only at h
      cases hv : f v1 with
      | some w => rw [hv] at h; cases h; exact hp.2.2 _ _ _ hq
      | none => rw [hv] at h; cases h
    | incomplete => rw [hq] at h; cases h
    | error => rw [hq] at h; cases h

theorem good_popt {α : Type} (p : BP α) (hp : Good p) : Good (popt p) := by
  refine ⟨?_, ?_, ?_⟩
  · intro a b r v h
    rw [popt] at h ⊢
    cases hq : p a with
    | done r1 v1 =>
      rw [hq] at h
      cases h
      rw [hp.1 _ b _ _ hq]
    | incomplete => rw [hq] at h; cases h
    | error =>
      rw [hq] at h
      cases h
      rw [hp.2.1 _ b hq]
  · intro a b h
    rw [popt] at h
    cases hq : p a with
    | done r1 v1 => rw [hq] at h; cases h
    | incomplete => rw [hq] at h; cases h
    | error => rw [hq] at h; cases h
  · intro a r v h
    rw [popt] at h
    cases hq : p a with
    | done r1 v1 =>
      rw [hq] at h
      cases h
      exact hp.2.2 _ _ _ hq
    | incomplete => rw [hq] at h; cases h
    | error => rw [hq] at h; cases h; exact Nat.le_refl _

theorem good_precognize {α : Type} (p : BP α) (hp : Good p) : Good (precognize p) := by
  refine ⟨?_, ?_, ?_⟩
  · intro a b r v h
    rw [precognize] at h ⊢
    cases hq : p a with
    | done r1 v1 =>
      rw [hq] at h
      cases h
      rw [hp.1 _ b _ _ hq]
      dsimp only
      have hle : a.length - r.length ≤ a.length := Nat.sub_le _ _
      have heq : (a ++ b).length - (r ++ b).length = a.length - r.length := by
        simp only [List.length_append]
        omega
      rw [heq, List.take_append_of_le_length hle]
    | incomplete => rw [hq] at h; cases h
    | error => rw [hq] at h; cases h
  · intro a b h
    rw [precognize] at h ⊢
    cases hq : p a with
    | done r1 v1 => rw [hq] at h; cases h
    | incomplete => rw [hq] at h; cases h
    | error => rw [hp.2.1 _ b hq]
  · intro a r v h
    rw [precognize] at h
    cases hq : p a with
    | done r1 v1 =>
      rw [hq] at h
      cases h
      exact hp.2.2 _ _ _ hq
    | incomplete => rw [hq] at h; cases h
    | error => rw [hq] at h; cases h

theorem good_ppreceded {α β : Type} (a : BP α) (b : BP β)
    (ha : Good a) (hb : Good b) : Good (ppreceded a b) :=
  good_pbind a _ ha (fun _ => hb)

theorem good_pdelimited {α β γ : Type} (l : BP α) (p : BP β) (r : BP γ)
    (hl : Good l) (hp : Good p) (hr : Good r) : Good (pdelimited l p r) :=
  good_pbind l _ hl (fun _ => good_pbind p _ hp (fun _ => good_pmap _ r hr))

theorem good_altL {α : Type} (ps : List (BP α)) (h : ∀ p ∈ ps, Good p) :
    Good (altL ps) := by
  induction ps with
  | nil =>
    refine ⟨?_, ?_, ?_⟩
    · intro a b r v hq; rw [altL] at hq; cases hq
    · intro a b hq; rfl
    · intro a r v hq; rw [altL] at hq; cases hq
  | cons p ps ih =>
    have hp : Good p := h p (List.mem_cons_self p ps)
    have hps := ih (fun q hq => h q (List.mem_cons_of_mem p hq))
    refine ⟨?_, ?_, ?_⟩
    · intro a b r v hq
      simp only [altL] at hq ⊢
      cases hc : p a with
      | done r1 v1 =>
        rw [hc] at hq
        cases hq
        rw [hp.1 _ b _ _ hc]
      | incomplete => rw [hc] at hq; cases hq
      | error =>
        rw [hc] at hq
        rw [hp.2.1 _ b hc]
        exact hps.1 _ b _ _ hq
    · intro a b hq
      simp only [altL] at hq ⊢
      cases hc : p a with
      | done r1 v1 => rw [hc] at hq; cases hq
      | incomplete => rw [hc] at hq; cases hq
      | error =>
        rw [hc] at hq
        rw [hp.2.1 _ b hc]
        exact hps.2.1 _ b hq
    · intro a r v hq
      simp only [altL] at hq
      cases hc : p a with
      | done r1 v1 =>
        rw [hc] at hq
        cases hq
        exact hp.2.2 _ _ _ hc
      | incomplete => rw [hc] at hq; cases hq
      | error =>
        rw [hc] at hq
        exact hps.2.2 _ _ _ hq

end CombinatorGood2

section RepetitionGood

theorem many0F_mono {α : Type} (p : BP α) (hp : Good p) :
    ∀ (fuel : Nat) (a b r : List Nat) (v : List α), a.length < fuel →
      many0F p fuel a = .done r v →
      many0F p (fuel + b.length) (a ++ b) = .done (r ++ b) v := by
  intro fuel
  induction fuel with
  | zero => intro a b r v hlt; omega
  | succ fuel ih =>
    intro a b r v hlt h
    have hstep : fuel + 1 + b.length = (fuel + b.length) + 1 := by omega
    rw [hstep, many0F]
    rw [many0F] at h
    cases hq : p a with
    | incomplete => rw [hq] at h; cases h
    | error =>
      rw [hq] at h
      cases h
      rw [hp.2.1 _ b hq]
    | done rest v1 =>
      rw [hq] at h
      dsimp only at h
      rw [hp.1 _ b _ _ hq]
      dsimp only
      by_cases hprog : rest.length < a.length
      · rw [if_pos hprog] at h
        rw [if_pos (by simp only [List.length_append]; omega : (rest ++ b).length < (a ++ b).length)]
        cases hrec : many0F p fuel rest with
        | done r2 vs =>
          rw [hrec] at h
          cases h
          rw [ih rest b _ _ (by omega) hrec]
        | incomplete => rw [hrec] at h; cases h
        | error => rw [hrec] at h; cases h
      · rw [if_neg hprog] at h; cases h

theorem many0F_errSt {α : Type} (p : BP α) (hp : Good p) :
    ∀ (fuel : Nat) (a b : List Nat), a.length < fuel →
      many0F p fuel a = .error →
      many0F p (fuel + b.length) (a ++ b) = .error := by
  intro fuel
  induction fuel with
  | zero => intro a b hlt; omega
  | succ fuel ih =>
    intro a b hlt h
    have hstep : fuel + 1 + b.length = (fuel + b.length) + 1 := by omega
    rw [hstep, many0F]
    rw [many0F] at h
    cases hq : p a with
    | incomplete => rw [hq] at h; cases h
    | error => rw [hq] at h; cases h
    | done rest v1 =>
      rw [hq] at h
      dsimp only at h
      rw [hp.1 _ b _ _ hq]
      dsimp only
      by_cases hprog : rest.length < a.length
      · rw [if_pos hprog] at h
        rw [if_pos (by simp only [List.length_append]; omega : (rest ++ b).length < (a ++ b).length)]
        cases hrec : many0F p fuel rest with
        | done r2 vs => rw [hrec] at h; cases h
        | incomplete => rw [hrec] at h; cases h
        | error => rw [ih rest b (by omega) hrec]
      · rw [if_neg hprog] at h
        rw [if_neg (by simp only [List.length_append]; omega : ¬ (rest ++ b).length < (a ++ b).length)]

theorem many0F_suff {α : Type} (p : BP α) (_hp : Good p) :
    ∀ (fuel : Nat) (a r : List Nat) (v : List α),
      many0F p fuel a = .done r v → r.length ≤ a.length := by
  intro fuel
  induction fuel with
  | zero => intro a r v h; rw [many0F] at h; cases h
  | succ fuel ih =>
    intro a r v h
    rw [many0F] at h
    cases hq : p a with
    | incomplete => rw [hq] at h; cases h
    | error => rw [hq] at h; cases h; exact Nat.le_refl _
    | done rest v1 =>
      rw [hq] at h
      dsimp only at h
      by_cases hprog : rest.length < a.length
      · rw [if_pos hprog] at h
        cases hrec : many0F p fuel rest with
        | done r2 vs =>
          rw [hrec] at h
          cases h
          exact Nat.le_trans (ih rest _ _ hrec) (by omega)
        | incomplete => rw [hrec] at h; cases h
        | error => rw [hrec] at h; cases h
      · rw [if_neg hprog] at h; cases h

theorem good_many0P {α : Type} (p : BP α) (hp : Good p) : Good (many0P p) := by
  refine ⟨?_, ?_, ?_⟩
  · intro a b r v h
    rw [many0P] at h ⊢
    have harith : (a ++ b).length + 1 = (a.length + 1) + b.length := by
      simp only [List.length_append]; omega
    rw [harith]
    exact many0F_mono p hp _ a b r v (by omega) h
  · intro a b h
    rw [many0P] at h ⊢
    have harith : (a ++ b).length + 1 = (a.length + 1) + b.length := by
      simp only [List.length_append]; omega
    rw [harith]
    exact many0F_errSt p hp _ a b (by omega) h
  · intro a r v h
    rw [many0P] at h
    exact many0F_suff p hp _ a r v h

theorem good_countP {α : Type} (p : BP α) (hp : Good p) (n : Nat) :
    Good (countP p n) := by
  induction n with
  | zero =>
    refine ⟨?_, ?_, ?_⟩
    · intro a b r v h; rw [countP] at h ⊢; cases h; rfl
    · intro a b h; rw [countP] at h; cases h
    · intro a r v h; rw [countP] at h; cases h; exact Nat.le_refl _
  | succ n ih =>
    refine ⟨?_, ?_, ?_⟩
    · intro a b r v h
      rw [countP] at h ⊢
      cases hq : p a with
      | incomplete => rw [hq] at h; cases h
      | error => rw [hq] at h; cases h
      | done rest v1 =>
        rw [hq] at h
        dsimp only at h
        rw [hp.1 _ b _ _ hq]
        dsimp only
        cases hrec : countP p n rest with
        | done r2 vs =>
          rw [hrec] at h
          cases h
          rw [ih.1 _ b _ _ hrec]
        | incomplete => rw [hrec] at h; cases h
        | error => rw [hrec] at h; cases h
    · intro a b h
      rw [countP] at h ⊢
      cases hq : p a with
      | incomplete => rw [hq] at h; cases h
      | error => rw [hp.2.1 _ b hq]
      | done rest v1 =>
        rw [hq] at h
        dsimp only at h
        rw [hp.1 _ b _ _ hq]
        dsimp only
        cases hrec : countP p n rest with
        | done r2 vs => rw [hrec] at h; cases h
        | incomplete => rw [hrec] at h; cases h
        | error => rw [ih.2.1 _ b hrec]
    · intro a r v h
      rw [countP] at h
      cases hq : p a with
      | incomplete => rw [hq] at h; cases h
      | error => rw [hq] at h; cases h
      | done rest v1 =>
        rw [hq] at h
        dsimp only at h
        cases hrec : countP p n rest with
        | done r2 vs =>
          rw [hrec] at h
          cases h
          exact Nat.le_trans (ih.2.2 _ _ _ hrec) (hp.2.2 _ _ _ hq)
        | incomplete => rw [hrec] at h; cases h
        | error => rw [hrec] at h; cases h

theorem manyMNF_good {α : Type} (p : BP α) (hp : Good p) :
    ∀ (mx mn : Nat),
      (∀ a b r v, manyMNF p mn mx a = .done r v →
        manyMNF p mn mx (a ++ b) = .done (r ++ b) v) ∧
      (∀ a b, manyMNF p mn mx a = .error → manyMNF p mn mx (a ++ b) = .error) ∧
      (∀ a r v, manyMNF p mn mx a = .done r v → r.length ≤ a.length) := by
  intro mx
  induction mx with
  | zero =>
    intro mn
    refine ⟨?_, ?_, ?_⟩
    · intro a b r v h; rw [manyMNF] at h ⊢; cases h; rfl
    · intro a b h; rw [manyMNF] at h; cases h
    · intro a r v h; rw [manyMNF] at h; cases h; exact Nat.le_refl _
  | succ mx ih =>
    intro mn
    refine ⟨?_, ?_, ?_⟩
    · intro a b r v h
      rw [manyMNF] at h ⊢
      cases hq : p a with
      | incomplete => rw [hq] at h; cases h
      | error =>
        rw [hq] at h
        rw [hp.2.1 _ b hq]
        by_cases hmn : mn = 0
        · rw [if_pos hmn] at h ⊢
          cases h
          rfl
        · rw [if_neg hmn] at h; cases h
      | done rest v1 =>
        rw [hq] at h
        dsimp only at h
        rw [hp.1 _ b _ _ hq]
        dsimp only
        by_cases hprog : rest.length < a.length
        · rw [if_pos hprog] at h
          rw [if_pos (by simp only [List.length_append]; omega :
            (rest ++ b).length < (a ++ b).length)]
          cases hrec : manyMNF p (mn - 1) mx rest with
          | done r2 vs =>
            rw [hrec] at h
            cases h
            rw [(ih (mn - 1)).1 _ b _ _ hrec]
          | incomplete => rw [hrec] at h; cases h
          | error => rw [hrec] at h; cases h
        · rw [if_neg hprog] at h; cases h
    · intro a b h
      rw [manyMNF] at h ⊢
      cases hq : p a with
      | incomplete => rw [hq] at h; cases h
      | error =>
        rw [hq] at h
        rw [hp.2.1 _ b hq]
        by_cases hmn : mn = 0
        · rw [if_pos hmn] at h; cases h
        · rw [if_neg hmn] at h ⊢
      | done rest v1 =>
        rw [hq] at h
        dsimp only at h
        rw [hp.1 _ b _ _ hq]
        dsimp only
        by_cases hprog : rest.length < a.length
        · rw [if_pos hprog] at h
          rw [if_pos (by simp only [List.length_append]; omega :
            (rest ++ b).length < (a ++ b).length)]
          cases hrec : manyMNF p (mn - 1) mx rest with
          | done r2 vs => rw [hrec] at h; cases h
          | incomplete => rw [hrec] at h; cases h
          | error => rw [(ih (mn - 1)).2.1 _ b hrec]
        · rw [if_neg hprog] at h
          rw [if_neg (by simp only [List.length_append]; omega :
            ¬ (rest ++ b).length < (a ++ b).length)]
    · intro a r v h
      rw [manyMNF] at h
      cases hq : p a with
      | incomplete => rw [hq] at h; cases h
      | error =>
        rw [hq] at h
        by_cases hmn : mn = 0
        · rw [if_pos hmn] at h; cases h; exact Nat.le_refl _
        · rw [if_neg hmn] at h; cases h
      | done rest v1 =>
        rw [hq] at h
        dsimp only at h
        by_cases hprog : rest.length < a.length
        · rw [if_pos hprog] at h
          cases hrec : manyMNF p (mn - 1) mx rest with
          | done r2 vs =>
            rw [hrec] at h
            cases h
            exact Nat.le_trans ((ih (mn - 1)).2.2 _ _ _ hrec) (by omega)
          | incomplete => rw [hrec] at h; cases h
          | error => rw [hrec] at h; cases h
        · rw [if_neg hprog] at h; cases h

theorem good_manyMN {α : Type} (mn mx : Nat) (p : BP α) (hp : Good p) :
    Good (manyMN mn mx p) := by
  by_cases hc : mx < mn
  · refine ⟨?_, ?_, ?_⟩
    · intro a b r v h; rw [manyMN, if_pos hc] at h; cases h
    · intro a b h; rw [manyMN, if_pos hc] at h ⊢
    · intro a r v h; rw [manyMN, if_pos hc] at h; cases h
  · refine ⟨?_, ?_, ?_⟩
    · intro a b r v h
      rw [manyMN, if_neg hc] at h ⊢
      exact (manyMNF_good p hp mx mn).1 _ b _ _ h
    · intro a b h
      rw [manyMN, if_neg hc] at h ⊢
      exact (manyMNF_good p hp mx mn).2.1 _ b h
    · intro a r v h
      rw [manyMN, if_neg hc] at h
      exact (manyMNF_good p hp mx mn).2.2 _ _ _ h

end RepetitionGood

section GrammarGood

theorem goodList_nil {α : Type} : ∀ p ∈ ([] : List (BP α)), Good p :=
  fun p hp => absurd hp (List.not_mem_nil p)

theorem goodList_cons {α : Type} (p : BP α) (ps : List (BP α))
    (hp : Good p) (hps : ∀ q ∈ ps, Good q) : ∀ q ∈ p :: ps, Good q := by
  intro q hq
  rcases List.mem_cons.mp hq with rfl | hq2
  · exact hp
  · exact hps q hq2

theorem good_SPp : Good SPp := good_tagP _

theorem good_CRLFp : Good CRLFp := good_tagP _

theorem good_DQUOTEp : Good DQUOTEp := good_tagP _

theorem good_digit1 : Good digit1 := good_takeWhile1P _

theorem good_base64 : Good ModParse.base64 :=
  good_pmapRes _ _
    (good_precognize _
      (good_pbind _ _ (good_takeWhileP _) fun _ =>
        good_popt _
          (good_altL _ (goodList_cons _ _ (good_tagP _)
            (goodList_cons _ _ (good_tagP _) goodList_nil)))))

theorem good_Ldh_str : Good ModParse.Ldh_str :=
  good_precognize _
    (good_many0P _
      (good_altL _
        (goodList_cons _ _ (good_takeWhileMN 1 1 _ (Nat.le_refl 1))
          (goodList_cons _ _ (good_takeWhileMN 1 1 _ (Nat.le_refl 1))
            (goodList_cons _ _
              (good_precognize _
                (good_pbind _ _ (good_tagP _) fun _ =>
                  good_takeWhileMN 1 1 _ (Nat.le_refl 1)))
              goodList_nil)))))

theorem good_sub_domain : Good ModParse.sub_domain :=
  good_precognize _
    (good_pbind _ _ (good_takeWhileMN 1 1 _ (Nat.le_refl 1)) fun _ =>
      good_popt _ good_Ldh_str)

theorem good_snum : Good Addr.snum := good_takeWhileMN 1 3 _ (by omega)

theorem good_ipv4_address_literal : Good Addr.ipv4_address_literal :=
  good_precognize _
    (good_pbind _ _ good_snum fun _ =>
      good_countP _ (good_pbind _ _ (good_tagP _) fun _ => good_snum) 3)

theorem good_ipv6_hex : Good Addr.ipv6_hex := good_takeWhileMN 1 4 _ (by omega)

theorem good_ipv6_full : Good Addr.ipv6_full :=
  good_precognize _
    (good_pbind _ _ good_ipv6_hex fun _ =>
      good_countP _ (good_pbind _ _ (good_tagP _) fun _ => good_ipv6_hex) 7)

theorem good_ipv6_comp : Good Addr.ipv6_comp :=
  good_precognize _
    (good_pbind _ _
      (good_popt _
        (good_pbind _ _ good_ipv6_hex fun _ =>
          good_manyMN 0 5 _ (good_pbind _ _ (good_tagP _) fun _ => good_ipv6_hex))) fun _ =>
      good_pbind _ _ (good_tagP _) fun _ =>
        good_popt _
          (good_pbind _ _ good_ipv6_hex fun _ =>
            good_manyMN 0 5 _ (good_pbind _ _ (good_tagP _) fun _ => good_ipv6_hex)))

theorem good_ipv6v4_full : Good Addr.ipv6v4_full :=
  good_precognize _
    (good_pbind _ _ good_ipv6_hex fun _ =>
      good_pbind _ _
        (good_countP _ (good_pbind _ _ (good_tagP _) fun _ => good_ipv6_hex) 5) fun _ =>
        good_pbind _ _ (good_tagP _) fun _ => good_ipv4_address_literal)

theorem good_ipv6v4_comp : Good Addr.ipv6v4_comp :=
  good_precognize _
    (good_pbind _ _
      (good_popt _
        (good_pbind _ _ good_ipv6_hex fun _ =>
          good_manyMN 0 3 _ (good_pbind _ _ (good_tagP _) fun _ => good_ipv6_hex))) fun _ =>
      good_pbind _ _ (good_tagP _) fun _ =>
        good_pbind _ _
          (good_popt _
            (good_pbind _ _ good_ipv6_hex fun _ =>
              good_pbind _ _
                (good_manyMN 0 3 _ (good_pbind _ _ (good_tagP _) fun _ => good_ipv6_hex))
                fun _ => good_tagP _)) fun _ =>
          good_ipv4_address_literal)

theorem good_ipv6_addr : Good Addr.ipv6_addr :=
  good_precognize _
    (good_altL _
      (goodList_cons _ _ good_ipv6_full
        (goodList_cons _ _ good_ipv6_comp
          (goodList_cons _ _ good_ipv6v4_full
            (goodList_cons _ _ good_ipv6v4_comp goodList_nil)))))

theorem good_ipv6_address_literal : Good Addr.ipv6_address_literal :=
  good_precognize _ (good_pbind _ _ (good_tagNC _) fun _ => good_ipv6_addr)

theorem good_general_address_literal : Good Addr.general_address_literal :=
  good_precognize _
    (good_pbind _ _ good_Ldh_str fun _ =>
      good_pbind _ _ (good_tagP _) fun _ => good_takeWhile1P _)

theorem good_cmd_Atom : Good Cmd.Atom := good_takeWhile1P _

theorem good_quoted_pairSMTP : Good Cmd.quoted_pairSMTP :=
  good_precognize _
    (good_pbind _ _ (good_tagP _) fun _ => good_takeWhileMN 1 1 _ (Nat.le_refl 1))

theorem good_QcontentSMTP : Good Cmd.QcontentSMTP :=
  good_precognize _
    (good_altL _
      (goodList_cons _ _ (good_takeWhileMN 1 1 _ (Nat.le_refl 1))
        (goodList_cons _ _ good_quoted_pairSMTP goodList_nil)))

theorem good_Quoted_string : Good Cmd.Quoted_string :=
  good_precognize _
    (good_pdelimited _ _ _ good_DQUOTEp (good_many0P _ good_QcontentSMTP) good_DQUOTEp)

theorem good_StringP : Good Cmd.StringP :=
  good_precognize _
    (good_altL _
      (goodList_cons _ _ good_cmd_Atom
        (goodList_cons _ _ good_Quoted_string goodList_nil)))

theorem good_Dot_string : Good Cmd.Dot_string :=
  good_precognize _
    (good_pbind _ _ good_cmd_Atom fun _ =>
      good_many0P _ (good_pbind _ _ (good_tagP _) fun _ => good_cmd_Atom))

theorem good_Local_part : Good Cmd.Local_part :=
  good_precognize _
    (good_altL _
      (goodList_cons _ _ good_Dot_string
        (goodList_cons _ _ good_Quoted_string goodList_nil)))

theorem good_cmd_Domain : Good Cmd.Domain :=
  good_precognize _
    (good_pbind _ _ good_sub_domain fun _ =>
      good_many0P _ (good_pbind _ _ (good_tagP _) fun _ => good_sub_domain))

theorem good_cmd_address_literal : Good Cmd.address_literal :=
  good_precognize _
    (good_pdelimited _ _ _ (good_tagP _)
      (good_altL _
        (goodList_cons _ _ good_ipv4_address_literal
          (goodList_cons _ _ good_ipv6_address_literal
            (goodList_cons _ _ good_general_address_literal goodList_nil))))
      (good_tagP _))

theorem good_Mailbox : Good Cmd.Mailbox :=
  good_precognize _
    (good_pbind _ _ good_Local_part fun _ =>
      good_pbind _ _ (good_tagP _) fun _ =>
        good_altL _
          (goodList_cons _ _ good_cmd_Domain
            (goodList_cons _ _ good_cmd_address_literal goodList_nil)))

theorem good_At_domain : Good Cmd.At_domain :=
  good_precognize _ (good_pbind _ _ (good_tagP _) fun _ => good_cmd_Domain)

theorem good_A_d_l : Good Cmd.A_d_l :=
  good_precognize _
    (good_pbind _ _ good_At_domain fun _ =>
      good_many0P _ (good_pbind _ _ (good_tagP _) fun _ => good_At_domain))

theorem good_Path : Good Cmd.Path :=
  good_precognize _
    (good_pbind _ _ (good_tagP _) fun _ =>
      good_pbind _ _
        (good_popt _ (good_pbind _ _ good_A_d_l fun _ => good_tagP _)) fun _ =>
        good_pbind _ _ good_Mailbox fun _ => good_tagP _)

theorem good_Reverse_path : Good Cmd.Reverse_path :=
  good_precognize _
    (good_altL _
      (goodList_cons _ _ good_Path (goodList_cons _ _ (good_tagP _) goodList_nil)))

theorem good_Forward_path : Good Cmd.Forward_path :=
  good_precognize _ good_Path

theorem good_esmtp_keyword : Good Cmd.esmtp_keyword :=
  good_precognize _
    (good_pbind _ _ (good_takeWhileMN 1 1 _ (Nat.le_refl 1)) fun _ =>
      good_takeWhileP _)

theorem good_esmtp_value : Good Cmd.esmtp_value := good_takeWhile1P _

theorem good_esmtp_param : Good Cmd.esmtp_param :=
  good_precognize _
    (good_pbind _ _ good_esmtp_keyword fun _ =>
      good_popt _ (good_pbind _ _ (good_tagP _) fun _ => good_esmtp_value))

theorem good_Mail_parameters : Good Cmd.Mail_parameters :=
  good_precognize _
    (good_pbind _ _ good_esmtp_param fun _ =>
      good_many0P _ (good_pbind _ _ good_SPp fun _ => good_esmtp_param))

theorem good_Rcpt_parameters : Good Cmd.Rcpt_parameters :=
  good_precognize _
    (good_pbind _ _ good_esmtp_param fun _ =>
      good_many0P _ (good_pbind _ _ good_SPp fun _ => good_esmtp_param))

theorem good_helo : Good Cmd.helo :=
  good_pbind _ _ (good_tagNC _) fun _ =>
    good_pbind _ _ good_SPp fun _ =>
      good_pbind _ _
        (good_altL _
          (goodList_cons _ _ good_cmd_Domain
            (goodList_cons _ _ good_cmd_address_literal goodList_nil))) fun _ =>
        good_pmap _ _ good_CRLFp

theorem good_ehlo : Good Cmd.ehlo :=
  good_pbind _ _ (good_tagNC _) fun _ =>
    good_pbind _ _ good_SPp fun _ =>
      good_pbind _ _
        (good_altL _
          (goodList_cons _ _ good_cmd_Domain
            (goodList_cons _ _ good_cmd_address_literal goodList_nil))) fun _ =>
        good_pmap _ _ good_CRLFp

theorem good_mail : Good Cmd.mail :=
  good_pbind _ _ (good_tagNC _) fun _ =>
    good_pbind _ _ (good_popt _ good_SPp) fun _ =>
      good_pbind _ _ good_Reverse_path fun _ =>
        good_pbind _ _ (good_popt _ (good_ppreceded _ _ good_SPp good_Mail_parameters))
          fun _ => good_pmap _ _ good_CRLFp

theorem good_rcpt : Good Cmd.rcpt :=
  good_pbind _ _ (good_tagNC _) fun _ =>
    good_pbind _ _ (good_popt _ good_SPp) fun _ =>
      good_pbind _ _
        (good_altL _
          (goodList_cons _ _
            (good_precognize _
              (good_pbind _ _ (good_tagNC _) fun _ =>
                good_pbind _ _ good_cmd_Domain fun _ => good_tagP _))
            (goodList_cons _ _ (good_tagNC _)
              (goodList_cons _ _ good_Forward_path goodList_nil)))) fun _ =>
        good_pbind _ _ (good_popt _ (good_ppreceded _ _ good_SPp good_Rcpt_parameters))
          fun _ => good_pmap _ _ good_CRLFp

theorem good_data : Good Cmd.data :=
  good_pbind _ _ (good_tagNC _) fun _ => good_pmap _ _ good_CRLFp

theorem good_rset : Good Cmd.rset :=
  good_pbind _ _ (good_tagNC _) fun _ => good_pmap _ _ good_CRLFp

theorem good_vrfy : Good Cmd.vrfy :=
  good_pbind _ _ (good_tagNC _) fun _ =>
    good_pbind _ _ good_SPp fun _ =>
      good_pbind _ _ good_StringP fun _ => good_pmap _ _ good_CRLFp

theorem good_expn : Good Cmd.expn :=
  good_pbind _ _ (good_tagNC _) fun _ =>
    good_pbind _ _ good_SPp fun _ =>
      good_pbind _ _ good_StringP fun _ => good_pmap _ _ good_CRLFp

theorem good_help : Good Cmd.help :=
  good_pbind _ _ (good_tagNC _) fun _ =>
    good_pbind _ _ (good_popt _ (good_ppreceded _ _ good_SPp good_StringP)) fun _ =>
      good_pmap _ _ good_CRLFp

theorem good_noop : Good Cmd.noop :=
  good_pbind _ _ (good_tagNC _) fun _ =>
    good_pbind _ _ (good_popt _ (good_ppreceded _ _ good_SPp good_StringP)) fun _ =>
      good_pmap _ _ good_CRLFp

theorem good_quit : Good Cmd.quit :=
  good_pbind _ _ (good_tagNC _) fun _ => good_pmap _ _ good_CRLFp

theorem good_starttls : Good Cmd.starttls :=
  good_pbind _ _ (good_tagNC _) fun _ => good_pmap _ _ good_CRLFp

theorem good_auth_login : Good Cmd.auth_login :=
  good_pbind _ _ (good_tagNC _) fun _ =>
    good_pbind _ _ good_SPp fun _ =>
      good_pbind _ _ (good_tagNC _) fun _ =>
        good_pbind _ _ (good_popt _ (good_ppreceded _ _ good_SPp good_base64)) fun _ =>
          good_pmap _ _ good_CRLFp

theorem good_auth_plain : Good Cmd.auth_plain :=
  good_pbind _ _ (good_tagNC _) fun _ =>
    good_pbind _ _ good_SPp fun _ =>
      good_pbind _ _ (good_tagNC _) fun _ =>
        good_pbind _ _ (good_popt _ (good_ppreceded _ _ good_SPp good_base64)) fun _ =>
          good_pmap _ _ good_CRLFp

/-- The whole command grammar satisfies the streaming invariants. -/
theorem good_command : Good Cmd.command :=
  good_altL _
    (goodList_cons _ _ good_helo
      (goodList_cons _ _ good_ehlo
        (goodList_cons _ _ good_mail
          (goodList_cons _ _ good_rcpt
            (goodList_cons _ _ good_data
              (goodList_cons _ _ good_rset
                (goodList_cons _ _ good_vrfy
                  (goodList_cons _ _ good_expn
                    (goodList_cons _ _ good_help
                      (goodList_cons _ _ good_noop
                        (goodList_cons _ _ good_quit
                          (goodList_cons _ _ good_starttls
                            (goodList_cons _ _ good_auth_login
                              (goodList_cons _ _ good_auth_plain
                                goodList_nil))))))))))))))

end GrammarGood

/-- The streaming-prefix law: every strict prefix of the consumed part of
a successful parse returns `Incomplete` (never `Err::Error`). -/
theorem prefix_incomplete {α : Type} (p : BP α) (hg : Good p) (l r : List Nat) (v : α)
    (h : p l = .done r v) : ∀ n, n < l.length - r.length → p (l.take n) = .incomplete := by
  intro n hn
  cases hres : p (l.take n) with
  | incomplete => rfl
  | error =>
    have herr := hg.2.1 (l.take n) (l.drop n) hres
    rw [List.take_append_drop, h] at herr
    cases herr
  | done r2 v2 =>
    have hmono := hg.1 (l.take n) (l.drop n) r2 v2 hres
    rw [List.take_append_drop, h] at hmono
    injection hmono with h1 h2
    have hl1 := congrArg List.length h1
    simp only [List.length_append, List.length_drop] at hl1
    omega

/-- C2: premature end of input inside the command grammar yields
`Incomplete`, never `Invalid`: whenever `command` succeeds on `l` leaving
`r`, every strict prefix of the consumed bytes parses as `Incomplete`; in
particular `command` on the truncated `EHLO exam` is `Incomplete`. -/
theorem claim_C2 :
    (∀ (l r : List Nat) (v : Cmd.ParsedCommand), Cmd.command l = .done r v →
      ∀ n, n < l.length - r.length → Cmd.command (l.take n) = .incomplete) ∧
    Cmd.command (bytes "EHLO exam") = .incomplete := by
  refine ⟨?_, by decide⟩
  intro l r v h n hn
  exact prefix_incomplete Cmd.command good_command l r v h n hn

/-- C2 instantiated: `EHLO exam` is the 9-byte prefix of the parseable
`EHLO example.com\r\n`, so the law yields `Incomplete` there. -/
theorem claim_C2_witness :
    Cmd.command ((bytes "EHLO example.com\r\n").take 9) = .incomplete :=
  claim_C2.1 (bytes "EHLO example.com\r\n") [] (.Ehlo (bytes "example.com"))
    (by decide) 9 (by decide)

section ReplyCodeClaims

theorem takeWhileMN_exact3 (p : Nat → Bool) (a b c : Nat) (rest : List Nat)
    (ha : p a = true) (hb : p b = true) (hc : p c = true) :
    takeWhileMN 3 3 p (a :: b :: c :: rest) = .done rest [a, b, c] := by
  rw [takeWhileMN]
  cases hs : scanWhile p rest with
  | some td =>
    obtain ⟨t, d⟩ := td
    have hscan : scanWhile p (a :: b :: c :: rest) = some (a :: b :: c :: t, d) := by
      simp only [scanWhile, ha, hb, hc, if_true, hs]
    rw [hscan]
    dsimp only
    rw [if_neg (by simp only [List.length_cons]; omega)]
    simp only [List.drop_succ_cons, List.drop_zero, List.take_succ_cons, List.take_zero]
    rw [scanWhile_parts p rest t d hs]
  | none =>
    have hscan : scanWhile p (a :: b :: c :: rest) = none := by
      simp only [scanWhile, ha, hb, hc, if_true, hs]
    rw [hscan]
    dsimp only
    rw [if_pos (by simp only [List.length_cons]; omega)]
    simp only [List.drop_succ_cons, List.drop_zero, List.take_succ_cons, List.take_zero]

theorem is_DIGIT_bounds (b : Nat) (h : is_DIGIT b = true) : 48 ≤ b ∧ b ≤ 57 := by
  simpa [is_DIGIT] using h

/-- C7 (amended): `Reply_code` accepts *any* three ASCII digits — the
RFC range restriction in its doc comment is not enforced (see the
`FIXME`) — and returns their decimal value. -/
theorem claim_C7 (d1 d2 d3 : Nat) (rest : List Nat)
    (h1 : is_DIGIT d1 = true) (h2 : is_DIGIT d2 = true) (h3 : is_DIGIT d3 = true) :
    Rsp.Reply_code (d1 :: d2 :: d3 :: rest) = .done rest (natOfDigits [d1, d2, d3]) := by
  obtain ⟨hb1, hb1r⟩ := is_DIGIT_bounds d1 h1
  obtain ⟨hb2, hb2r⟩ := is_DIGIT_bounds d2 h2
  obtain ⟨hb3, hb3r⟩ := is_DIGIT_bounds d3 h3
  have ht := takeWhileMN_exact3 is_DIGIT d1 d2 d3 rest h1 h2 h3
  have hutf : from_utf8ASCII [d1, d2, d3] = some [d1, d2, d3] := by
    have hcond : ([d1, d2, d3].all fun b => b < 128) = true := by
      simp only [List.all_cons, List.all_nil, Bool.and_eq_true, decide_eq_true_eq, and_true]
      omega
    rw [from_utf8ASCII, if_pos hcond]
  have hval : natOfDigits [d1, d2, d3] ≤ 999 := by
    simp only [natOfDigits, List.foldl]
    omega
  have hparse : parseU16 [d1, d2, d3] = some (natOfDigits [d1, d2, d3]) := by
    rw [parseU16, if_pos ⟨by simp, by simp [h1, h2, h3]⟩, if_pos (by omega)]
  simp only [Rsp.Reply_code, pmapRes, ht, hutf, hparse]

/-- C7 instantiated: the digits `999` (outside 200–599) parse fine. -/
theorem claim_C7_witness :
    Rsp.Reply_code (57 :: 57 :: 57 :: bytes " hi\r\n") =
      .done (bytes " hi\r\n") (natOfDigits [57, 57, 57]) :=
  claim_C7 57 57 57 (bytes " hi\r\n") (by decide) (by decide) (by decide)

/-- C7 refuted as stated: a full reply line with code `999` (and a
`Reply_code` fed `190`) succeed instead of returning `Invalid`. -/
theorem claim_C7_counterexample :
    Rsp.Reply_line (bytes "999 hi\r\n") = .done [] (bytes "999 hi\r\n") ∧
    Rsp.Reply_code (bytes "190x") = .done (bytes "x") 190 := by
  refine ⟨by decide, by decide⟩

end ReplyCodeClaims

section SizeClaims

theorem takeWhile1P_front (p : Nat → Bool) (ds : List Nat) (c : Nat) (rest : List Nat)
    (h1 : ds ≠ []) (h2 : ∀ b ∈ ds, p b = true) (h3 : p c = false) :
    takeWhile1P p (ds ++ c :: rest) = .done (c :: rest) ds := by
  rw [takeWhile1P, scanWhile_front p ds c rest h2 h3]
  cases ds with
  | nil => exact absurd rfl h1
  | cons a as => rfl

theorem number_spec (ds : List Nat) (c : Nat) (rest : List Nat)
    (h1 : ds ≠ []) (h2 : ∀ b ∈ ds, is_DIGIT b = true) (h3 : is_DIGIT c = false)
    (h4 : natOfDigits ds ≤ 4294967295) :
    ModParse.number (ds ++ c :: rest) = .done (c :: rest) (natOfDigits ds) := by
  have hd := takeWhile1P_front is_DIGIT ds c rest h1 h2 h3
  have hutf : from_utf8ASCII ds = some ds := by
    have hcond : (ds.all fun b => b < 128) = true := by
      rw [List.all_eq_true]
      intro x hx
      have hb := is_DIGIT_bounds x (h2 x hx)
      simp only [decide_eq_true_eq]
      omega
    rw [from_utf8ASCII, if_pos hcond]
  have hparse : parseU32 ds = some (natOfDigits ds) := by
    rw [parseU32, if_pos ⟨h1, by rw [List.all_eq_true]; exact h2⟩, if_pos h4]
  simp only [ModParse.number, digit1, pmapRes, hd, hutf, hparse]

/-- C8 (amended): in an EHLO capability line, `SIZE <n>` with `n` fitting
in `u32` parses to `Capability::Size(n)`; but a `u32`-overflowing number
does not make the parse Invalid — the `SIZE` alternative fails and the
line falls through to `Capability::Other { keyword: "SIZE", params }`,
concretely on `SIZE 4294967296`. -/
theorem claim_C8 :
    (∀ (ds : List Nat) (c : Nat) (rest : List Nat), ds ≠ [] →
      (∀ b ∈ ds, is_DIGIT b = true) → is_DIGIT c = false →
      natOfDigits ds ≤ 4294967295 →
      Rsp.ehlo_line (bytes "SIZE " ++ (ds ++ c :: rest)) =
        .done (c :: rest) (.Size (natOfDigits ds))) ∧
    Rsp.ehlo_line (bytes "SIZE 4294967296\r\n") =
      .done (bytes "\r\n") (.Other (bytes "SIZE") [bytes "4294967296"]) := by
  refine ⟨?_, by decide⟩
  intro ds c rest h1 h2 h3 h4
  have htag : tagNC (bytes "SIZE ") (bytes "SIZE " ++ (ds ++ c :: rest)) =
      .done (ds ++ c :: rest) (bytes "SIZE ") := by
    have h0 : tagNC (bytes "SIZE ") (bytes "SIZE ") = .done [] (bytes "SIZE ") := by decide
    have hm := (good_tagNC (bytes "SIZE ")).1 _ (ds ++ c :: rest) _ _ h0
    simpa using hm
  have hsize : pmap Types.Capability.Size
      (ppreceded (tagNC (bytes "SIZE ")) ModParse.number)
      (bytes "SIZE " ++ (ds ++ c :: rest)) =
      .done (c :: rest) (.Size (natOfDigits ds)) := by
    simp only [pmap, ppreceded, pbind, htag, number_spec ds c rest h1 h2 h3 h4]
  have he1 : pvalue Types.Capability.EXPN (tagNC (bytes "EXPN"))
      (bytes "SIZE " ++ (ds ++ c :: rest)) = .error :=
    (good_pvalue _ _ (good_tagNC _)).2.1 (bytes "SIZE ") _ (by decide)
  have he2 : pvalue Types.Capability.Help (tagNC (bytes "HELP"))
      (bytes "SIZE " ++ (ds ++ c :: rest)) = .error :=
    (good_pvalue _ _ (good_tagNC _)).2.1 (bytes "SIZE ") _ (by decide)
  have he3 : pvalue Types.Capability.EightBitMIME (tagNC (bytes "8BITMIME"))
      (bytes "SIZE " ++ (ds ++ c :: rest)) = .error :=
    (good_pvalue _ _ (good_tagNC _)).2.1 (bytes "SIZE ") _ (by decide)
  unfold Rsp.ehlo_line
  rw [altL_cons_error _ _ _ he1, altL_cons_error _ _ _ he2, altL_cons_error _ _ _ he3,
    altL_cons_done _ _ _ _ _ hsize]

/-- C8 instantiated: `SIZE 12345` (followed by CRLF) parses to
`Capability::Size(12345)`. -/
theorem claim_C8_witness :
    Rsp.ehlo_line (bytes "SIZE " ++ (bytes "12345" ++ 13 :: bytes "\n")) =
      .done (13 :: bytes "\n") (.Size (natOfDigits (bytes "12345"))) :=
  claim_C8.1 (bytes "12345") 13 (bytes "\n") (by decide) (by decide) (by decide)
    (by decide)

end SizeClaims

/-- C8 refuted as stated: `SIZE 4294967296` (overflowing `u32`) does not
make the EHLO line parse Invalid — it succeeds as `Capability::Other`. -/
theorem claim_C8_counterexample :
    Rsp.ehlo_line (bytes "SIZE 4294967296\r\n") =
      .done (bytes "\r\n") (.Other (bytes "SIZE") [bytes "4294967296"]) := by
  decide
